import Mathlib

/-!
Verification of the StyLua core formatter (files `src/lib.rs` and
`src/formatters/stmt.rs`) against its natural-language specification.

The development shallowly embeds the data model and the statement formatting
engine.  Code present in the two source files is translated verbatim; helper
modules of the repository that are not part of the provided sources
(`shape.rs`, `context.rs`, `trivia.rs`, `trivia_util.rs`, `general.rs`,
`expression.rs`, `block.rs`, `assignment.rs`, `functions.rs`, `verify_ast.rs`
and the external `full_moon` parser) are either modelled from the
specification (marked `Modelled from the spec:`) or kept abstract as explicit
function parameters collected in the `FmtEnv` / `Driver` structures.
-/

namespace StyLua

/-! ## Configuration (from `src/lib.rs`) -/

/-- The type of indents to use when indenting (lib.rs `IndentType`). -/
inductive IndentType
  | tabs
  | spaces
deriving DecidableEq, Repr

/-- The type of line endings (lib.rs `LineEndings`). -/
inductive LineEndings
  | unix
  | windows
deriving DecidableEq, Repr

/-- The type of table separator (lib.rs `TableSeparators`). -/
inductive TableSeparators
  | comma
  | semiColon
deriving DecidableEq, Repr

/-- The style of quotes within string literals (lib.rs `QuoteStyle`). -/
inductive QuoteStyle
  | autoPreferDouble
  | autoPreferSingle
  | forceDouble
  | forceSingle
deriving DecidableEq, Repr

/-- An optional formatting range of byte offsets (lib.rs `Range`). -/
structure FmtRange where
  start : Option Nat
  stop : Option Nat
deriving DecidableEq, Repr

/-- The configuration used when formatting (lib.rs `Config`). -/
structure Config where
  columnWidth : Nat
  lineEndings : LineEndings
  indentType : IndentType
  indentWidth : Nat
  quoteStyle : QuoteStyle
  noCallParentheses : Bool
  tableSep : TableSeparators
  extraSepAtTableEnd : Bool
  extraSpacesInsideTable : Bool
  extraSpaceInEmptyTable : Bool
deriving DecidableEq, Repr

/-- Default configuration (lib.rs `impl Default for Config`). -/
def Config.default : Config where
  columnWidth := 120
  lineEndings := .unix
  indentType := .tabs
  indentWidth := 4
  quoteStyle := .autoPreferDouble
  noCallParentheses := false
  tableSep := .comma
  extraSepAtTableEnd := false
  extraSpacesInsideTable := true
  extraSpaceInEmptyTable := false

instance : Inhabited Config := ⟨Config.default⟩

/-- The type of verification performed on the output (lib.rs
`OutputVerification`). -/
inductive OutputVerification
  | full
  | noVerify
deriving DecidableEq, Repr

/-! ## Shape

`shape.rs` is not among the provided sources.  Modelled from the spec:
"Shape: a value type — (indent_level, additional_indent, used_width,
width_budget). Invariant: `used_width + additional_indent*indent_width ≤
width_budget` is the 'not over budget' test; Shape values are never mutated,
only derived (reset, increment, add-width)."  The indent width of the
configuration is carried inside the value so that `overBudget` is
self-contained. -/
structure Shape where
  indentLevel : Nat
  additionalIndent : Nat
  usedWidth : Nat
  widthBudget : Nat
  indentWidth : Nat
deriving DecidableEq, Repr

namespace Shape

/-- Modelled from the spec: "`reset()` clears used width but preserves indent
level context for a fresh line". -/
def reset (s : Shape) : Shape := { s with usedWidth := 0 }

/-- Modelled from the spec: derive a Shape for one deeper block nesting level. -/
def incrementBlockIndent (s : Shape) : Shape :=
  { s with indentLevel := s.indentLevel + 1 }

/-- Modelled from the spec: derive a Shape for a hung continuation line. -/
def incrementAdditionalIndent (s : Shape) : Shape :=
  { s with additionalIndent := s.additionalIndent + 1 }

/-- Modelled from the spec: "adding an integer width yields a new Shape with
`used_width` increased". -/
def add (s : Shape) (n : Nat) : Shape := { s with usedWidth := s.usedWidth + n }

/-- Modelled from the spec: `used_width + additional_indent*indent_width ≤
width_budget` is the "not over budget" test. -/
def overBudget (s : Shape) : Bool :=
  s.widthBudget < s.usedWidth + s.additionalIndent * s.indentWidth

end Shape

/-! ## Trivia and tokens

Modelled from the spec: "Token: an atomic lexical unit carrying an ordered
sequence of leading trivia and an ordered sequence of trailing trivia.
Trivia is either whitespace or a comment; ordering within each sequence is
significant and preserved across transforms." -/

/-- A piece of trivia: whitespace or a comment. -/
inductive Trivia
  | ws (s : String)
  | comment (s : String)
deriving DecidableEq, Repr

/-- Whether a trivia item is a comment. -/
def Trivia.isComment : Trivia → Bool
  | .ws _ => false
  | .comment _ => true

/-- A token (full_moon `TokenReference`): leading trivia, token text,
trailing trivia. -/
structure Token where
  leading : List Trivia
  text : String
  trailing : List Trivia
deriving DecidableEq, Repr

/-- The trivia-update request used throughout the formatters (trivia.rs
`FormatTriviaType`; the module is not in the provided sources).  Modelled from
the spec: "operations to append/replace leading or trailing
comments/whitespace on a token". -/
inductive FormatTriviaType
  | append (l : List Trivia)
  | replace (l : List Trivia)
  | noChange
deriving DecidableEq, Repr

/-- Apply a trivia update to a trivia list. -/
def applyTriviaUpdate (orig : List Trivia) : FormatTriviaType → List Trivia
  | .append l => orig ++ l
  | .replace l => l
  | .noChange => orig

/-- Update the leading trivia of a token (trivia.rs `UpdateLeadingTrivia`,
modelled from the spec). -/
def Token.updateLeadingTrivia (t : Token) (u : FormatTriviaType) : Token :=
  { t with leading := applyTriviaUpdate t.leading u }

/-- Update the trailing trivia of a token (trivia.rs `UpdateTrailingTrivia`,
modelled from the spec). -/
def Token.updateTrailingTrivia (t : Token) (u : FormatTriviaType) : Token :=
  { t with trailing := applyTriviaUpdate t.trailing u }

/-- Update both trivia sequences of a token (trivia.rs `UpdateTrivia`,
modelled from the spec). -/
def Token.updateTrivia (t : Token) (lu tu : FormatTriviaType) : Token :=
  (t.updateLeadingTrivia lu).updateTrailingTrivia tu

/-- Modelled from the spec (trivia_util.rs is not in the provided sources):
whether a token carries trailing comments. -/
def tokenContainsTrailingComments (t : Token) : Bool :=
  t.trailing.any Trivia.isComment

/-- Modelled from the spec (trivia_util.rs is not in the provided sources):
whether a token carries leading comments. -/
def tokenContainsLeadingComments (t : Token) : Bool :=
  t.leading.any Trivia.isComment

/-- The comments of a trivia list, in order. -/
def commentsOnly (l : List Trivia) : List Trivia :=
  l.filter Trivia.isComment

/-! ## The concrete syntax tree

Embeds the fragment of the external `full_moon` AST used by
`src/formatters/stmt.rs`.  Punctuated sequences are embedded as dedicated
list-like inductives to keep recursion structural. -/

set_option maxHeartbeats 2000000

mutual

inductive Expression
  | binaryOperator (lhs : Expression) (binop : Token) (rhs : Expression)
  | parens (lparen rparen : Token) (expression : Expression)
  | unaryOperator (unop : Token) (expression : Expression)
  | value (v : Value)

inductive Value
  | func (functionToken : Token) (body : FunctionBody)
  | functionCall (c : FunctionCall)
  | tableConstructor (t : TableConstructor)
  | parenExpression (e : Expression)
  | other (tok : Token)

inductive FunctionBody
  | mk (header : Token) (block : Block) (endToken : Token)

inductive FunctionCall
  | mk (pfx : FCPrefix) (suffixes : SuffixList)

inductive FCPrefix
  | expr (e : Expression)
  | name (t : Token)

inductive SuffixList
  | nil
  | cons (s : Suffix) (rest : SuffixList)

inductive Suffix
  | call (c : Call)
  | index (i : Index)

inductive Call
  | anonymousCall (args : FunctionArgs)
  | methodCall (m : MethodCall)

inductive MethodCall
  | mk (colon nameTok : Token) (args : FunctionArgs)

inductive FunctionArgs
  | parens (lparen rparen : Token) (arguments : ExprList)
  | tableConstructor (t : TableConstructor)
  | str (tok : Token)

inductive Index
  | brackets (lbracket rbracket : Token) (expression : Expression)
  | dot (dotTok nameTok : Token)

inductive TableConstructor
  | mk (lbrace rbrace : Token) (fields : FieldList)

inductive FieldList
  | nil
  | cons (f : Field) (sep : Option Token) (rest : FieldList)

inductive Field
  | expressionKey (lbracket rbracket : Token) (key : Expression) (equal : Token) (fvalue : Expression)
  | nameKey (key equal : Token) (fvalue : Expression)
  | noKey (e : Expression)

inductive ExprList
  | nil
  | cons (e : Expression) (sep : Option Token) (rest : ExprList)

inductive Block
  | mk (stmts : StmtList)

inductive StmtList
  | nil
  | cons (s : Stmt) (semi : Option Token) (rest : StmtList)

inductive Stmt
  | assignment (a : Assignment)
  | doStmt (d : DoBlock)
  | functionCall (c : FunctionCall)
  | functionDeclaration (f : FunctionDeclaration)
  | genericFor (g : GenericFor)
  | ifStmt (i : IfStmt)
  | localAssignment (l : LocalAssignment)
  | localFunction (l : LocalFunction)
  | numericFor (n : NumericFor)
  | repeatStmt (r : RepeatStmt)
  | whileStmt (w : WhileStmt)
  | compoundAssignment (c : CompoundAssignment)
  | exportedTypeDeclaration (t : Token)
  | typeDeclaration (t : Token)
  | goto (t : Token)
  | label (t : Token)

inductive Assignment
  | mk (varList equal : Token) (expressions : ExprList)

inductive LocalAssignment
  | mk (localToken nameList : Token) (equal : Option Token) (expressions : ExprList)

inductive DoBlock
  | mk (doToken : Token) (block : Block) (endToken : Token)

inductive FunctionDeclaration
  | mk (functionToken nameTok : Token) (body : FunctionBody)

inductive LocalFunction
  | mk (localToken functionToken nameTok : Token) (body : FunctionBody)

inductive GenericFor
  | mk (forToken : Token) (names : List (Token × Option Token))
      (typeSpecifiers : List (Option Token)) (inToken : Token)
      (expressions : ExprList) (doToken : Token) (block : Block)
      (endToken : Token)

inductive NumericFor
  | mk (forToken indexVariable : Token) (typeSpecifier : Option Token)
      (equalToken : Token) (startExpr : Expression) (startEndComma : Token)
      (endExpr : Expression) (endStepComma : Option Token)
      (step : Option Expression) (doToken : Token) (block : Block)
      (endToken : Token)

inductive IfStmt
  | mk (ifToken : Token) (condition : Expression) (thenToken : Token)
      (block : Block) (elseIfs : Option ElseIfList)
      (elseToken : Option Token) (elseBlock : Option Block)
      (endToken : Token)

inductive ElseIfList
  | nil
  | cons (e : ElseIf) (rest : ElseIfList)

inductive ElseIf
  | mk (elseIfToken : Token) (condition : Expression) (thenToken : Token)
      (block : Block)

inductive RepeatStmt
  | mk (repeatToken : Token) (block : Block) (untilToken : Token)
      (untilExpr : Expression)

inductive WhileStmt
  | mk (whileToken : Token) (condition : Expression) (doToken : Token)
      (block : Block) (endToken : Token)

inductive CompoundAssignment
  | mk (lhs op : Token) (rhs : Expression)

end

/-! ## Statement kinds -/

/-- The closed set of statement kinds routed by the dispatcher
(`fmt_stmt!` in stmt.rs, including the dialect-gated kinds). -/
inductive StmtKind
  | assignment
  | doStmt
  | functionCall
  | functionDeclaration
  | genericFor
  | ifStmt
  | localAssignment
  | localFunction
  | numericFor
  | repeatStmt
  | whileStmt
  | compoundAssignment
  | exportedTypeDeclaration
  | typeDeclaration
  | goto
  | label
deriving DecidableEq, Repr

/-- The kind (tagged-union variant) of a statement. -/
def Stmt.kind : Stmt → StmtKind
  | .assignment _ => .assignment
  | .doStmt _ => .doStmt
  | .functionCall _ => .functionCall
  | .functionDeclaration _ => .functionDeclaration
  | .genericFor _ => .genericFor
  | .ifStmt _ => .ifStmt
  | .localAssignment _ => .localAssignment
  | .localFunction _ => .localFunction
  | .numericFor _ => .numericFor
  | .repeatStmt _ => .repeatStmt
  | .whileStmt _ => .whileStmt
  | .compoundAssignment _ => .compoundAssignment
  | .exportedTypeDeclaration _ => .exportedTypeDeclaration
  | .typeDeclaration _ => .typeDeclaration
  | .goto _ => .goto
  | .label _ => .label

/-! ## Accessors for the single-constructor nodes -/

def IfStmt.ifToken : IfStmt → Token
  | .mk t _ _ _ _ _ _ _ => t

def IfStmt.condition : IfStmt → Expression
  | .mk _ c _ _ _ _ _ _ => c

def IfStmt.thenToken : IfStmt → Token
  | .mk _ _ t _ _ _ _ _ => t

def IfStmt.block : IfStmt → Block
  | .mk _ _ _ b _ _ _ _ => b

def IfStmt.elseIfs : IfStmt → Option ElseIfList
  | .mk _ _ _ _ e _ _ _ => e

def IfStmt.elseToken : IfStmt → Option Token
  | .mk _ _ _ _ _ t _ _ => t

def IfStmt.elseBlock : IfStmt → Option Block
  | .mk _ _ _ _ _ _ b _ => b

def IfStmt.endToken : IfStmt → Token
  | .mk _ _ _ _ _ _ _ t => t

def WhileStmt.whileToken : WhileStmt → Token
  | .mk t _ _ _ _ => t

def WhileStmt.condition : WhileStmt → Expression
  | .mk _ c _ _ _ => c

def WhileStmt.doToken : WhileStmt → Token
  | .mk _ _ t _ _ => t

def WhileStmt.block : WhileStmt → Block
  | .mk _ _ _ b _ => b

def WhileStmt.endToken : WhileStmt → Token
  | .mk _ _ _ _ t => t

def RepeatStmt.repeatToken : RepeatStmt → Token
  | .mk t _ _ _ => t

def RepeatStmt.block : RepeatStmt → Block
  | .mk _ b _ _ => b

def RepeatStmt.untilToken : RepeatStmt → Token
  | .mk _ _ t _ => t

def RepeatStmt.untilExpr : RepeatStmt → Expression
  | .mk _ _ _ e => e

def GenericFor.forToken : GenericFor → Token
  | .mk t _ _ _ _ _ _ _ => t

def GenericFor.names : GenericFor → List (Token × Option Token)
  | .mk _ n _ _ _ _ _ _ => n

def GenericFor.typeSpecifiers : GenericFor → List (Option Token)
  | .mk _ _ ts _ _ _ _ _ => ts

def GenericFor.inToken : GenericFor → Token
  | .mk _ _ _ t _ _ _ _ => t

def GenericFor.expressions : GenericFor → ExprList
  | .mk _ _ _ _ e _ _ _ => e

def GenericFor.doToken : GenericFor → Token
  | .mk _ _ _ _ _ t _ _ => t

def GenericFor.block : GenericFor → Block
  | .mk _ _ _ _ _ _ b _ => b

def GenericFor.endToken : GenericFor → Token
  | .mk _ _ _ _ _ _ _ t => t

def DoBlock.doToken : DoBlock → Token
  | .mk t _ _ => t

def DoBlock.block : DoBlock → Block
  | .mk _ b _ => b

def DoBlock.endToken : DoBlock → Token
  | .mk _ _ t => t

def NumericFor.endStepComma : NumericFor → Option Token
  | .mk _ _ _ _ _ _ _ c _ _ _ _ => c

def NumericFor.step : NumericFor → Option Expression
  | .mk _ _ _ _ _ _ _ _ s _ _ _ => s

/-! ## Context

Modelled from the spec (context.rs is not in the provided sources):
"Context: immutable per-run configuration ... plus an optional
`Range{start, end}` of byte offsets" which "exposes a predicate 'should this
node be fully (re)formatted or only have its nested blocks touched'".  Byte
positions of nodes are not part of the token model, so the predicate is
carried as a function field. -/
structure Context where
  config : Config
  range : Option FmtRange
  shouldFormatStmt : Stmt → Bool

/-- Modelled from the spec: synthesize a newline trivia token according to
the configured line-ending kind (context.rs `create_newline_trivia`). -/
def createNewlineTrivia (ctx : Context) : Trivia :=
  .ws (match ctx.config.lineEndings with
    | .unix => "\n"
    | .windows => "\r\n")

/-- Modelled from the spec: synthesize indentation trivia for the current
indent level of the shape (context.rs `create_indent_trivia`). -/
def createIndentTrivia (ctx : Context) (shape : Shape) : Trivia :=
  .ws (match ctx.config.indentType with
    | .tabs => String.mk (List.replicate (shape.indentLevel + shape.additionalIndent) '\t')
    | .spaces =>
        String.mk (List.replicate
          ((shape.indentLevel + shape.additionalIndent) * ctx.config.indentWidth) ' '))

/-- Modelled from the spec (context.rs `fmt_symbol!`): re-render a symbol
token with the given canonical text, preserving the comments attached to the
original token. -/
def fmtSymbol (_ctx : Context) (tok : Token) (text : String) (_shape : Shape) : Token :=
  { leading := commentsOnly tok.leading, text := text,
    trailing := commentsOnly tok.trailing }

/-- The kind of end-token being formatted (general.rs `EndTokenType`). -/
inductive EndTokenType
  | blockEnd
deriving DecidableEq, Repr

/-- Modelled from the spec (general.rs `format_end_token`): a shared
end-token formatter that keeps the token's text and preserves its comments
while discarding stale whitespace. -/
def formatEndToken (_ctx : Context) (tok : Token) (_ty : EndTokenType)
    (_shape : Shape) : Token :=
  { leading := commentsOnly tok.leading, text := tok.text,
    trailing := commentsOnly tok.trailing }

/-- Modelled from the spec (general.rs `format_token_reference`): re-render a
token keeping its text and comments. -/
def formatTokenReference (_ctx : Context) (tok : Token) (_shape : Shape) : Token :=
  { leading := commentsOnly tok.leading, text := tok.text,
    trailing := commentsOnly tok.trailing }

/-! ## Token collection over the tree

Used to model `strip_trivia(..).to_string()` (width measurement) and the
comment-presence predicates of trivia_util.rs, none of which are in the
provided sources.  A node's tokens are listed in source order. -/

mutual

def Expression.tokens : Expression → List Token
  | .binaryOperator lhs op rhs => lhs.tokens ++ [op] ++ rhs.tokens
  | .parens l r e => [l] ++ e.tokens ++ [r]
  | .unaryOperator op e => [op] ++ e.tokens
  | .value v => v.tokens

def Value.tokens : Value → List Token
  | .func t body => [t] ++ body.tokens
  | .functionCall c => c.tokens
  | .tableConstructor t => t.tokens
  | .parenExpression e => e.tokens
  | .other tok => [tok]

def FunctionBody.tokens : FunctionBody → List Token
  | .mk header block endToken => [header] ++ block.tokens ++ [endToken]

def FunctionCall.tokens : FunctionCall → List Token
  | .mk pfx suffixes => pfx.tokens ++ suffixes.tokens

def FCPrefix.tokens : FCPrefix → List Token
  | .expr e => e.tokens
  | .name t => [t]

def SuffixList.tokens : SuffixList → List Token
  | .nil => []
  | .cons s rest => s.tokens ++ rest.tokens

def Suffix.tokens : Suffix → List Token
  | .call c => c.tokens
  | .index i => i.tokens

def Call.tokens : Call → List Token
  | .anonymousCall args => args.tokens
  | .methodCall m => m.tokens

def MethodCall.tokens : MethodCall → List Token
  | .mk colon nameTok args => [colon, nameTok] ++ args.tokens

def FunctionArgs.tokens : FunctionArgs → List Token
  | .parens l r arguments => [l] ++ arguments.tokens ++ [r]
  | .tableConstructor t => t.tokens
  | .str tok => [tok]

def Index.tokens : Index → List Token
  | .brackets l r e => [l] ++ e.tokens ++ [r]
  | .dot d n => [d, n]

def TableConstructor.tokens : TableConstructor → List Token
  | .mk l r fields => [l] ++ fields.tokens ++ [r]

def FieldList.tokens : FieldList → List Token
  | .nil => []
  | .cons f sep rest => f.tokens ++ sep.toList ++ rest.tokens

def Field.tokens : Field → List Token
  | .expressionKey l r key equal fvalue =>
      [l] ++ key.tokens ++ [r, equal] ++ fvalue.tokens
  | .nameKey key equal fvalue => [key, equal] ++ fvalue.tokens
  | .noKey e => e.tokens

def ExprList.tokens : ExprList → List Token
  | .nil => []
  | .cons e sep rest => e.tokens ++ sep.toList ++ rest.tokens

def Block.tokens : Block → List Token
  | .mk stmts => stmts.tokens

def StmtList.tokens : StmtList → List Token
  | .nil => []
  | .cons s semi rest => s.tokens ++ semi.toList ++ rest.tokens

def Stmt.tokens : Stmt → List Token
  | .assignment a => a.tokens
  | .doStmt d => d.tokens
  | .functionCall c => c.tokens
  | .functionDeclaration f => f.tokens
  | .genericFor g => g.tokens
  | .ifStmt i => i.tokens
  | .localAssignment l => l.tokens
  | .localFunction l => l.tokens
  | .numericFor n => n.tokens
  | .repeatStmt r => r.tokens
  | .whileStmt w => w.tokens
  | .compoundAssignment c => c.tokens
  | .exportedTypeDeclaration t => [t]
  | .typeDeclaration t => [t]
  | .goto t => [t]
  | .label t => [t]

def Assignment.tokens : Assignment → List Token
  | .mk varList equal expressions => [varList, equal] ++ expressions.tokens

def LocalAssignment.tokens : LocalAssignment → List Token
  | .mk localToken nameList equal expressions =>
      [localToken, nameList] ++ equal.toList ++ expressions.tokens

def DoBlock.tokens : DoBlock → List Token
  | .mk doToken block endToken => [doToken] ++ block.tokens ++ [endToken]

def FunctionDeclaration.tokens : FunctionDeclaration → List Token
  | .mk functionToken nameTok body => [functionToken, nameTok] ++ body.tokens

def LocalFunction.tokens : LocalFunction → List Token
  | .mk localToken functionToken nameTok body =>
      [localToken, functionToken, nameTok] ++ body.tokens

def GenericFor.tokens : GenericFor → List Token
  | .mk forToken names typeSpecifiers inToken expressions doToken block endToken =>
      [forToken] ++ (names.map fun p => [p.1] ++ p.2.toList).flatten
        ++ (typeSpecifiers.map Option.toList).flatten ++ [inToken]
        ++ expressions.tokens ++ [doToken] ++ block.tokens ++ [endToken]

def NumericFor.tokens : NumericFor → List Token
  | .mk forToken indexVariable typeSpecifier equalToken startExpr startEndComma
      endExpr endStepComma step doToken block endToken =>
      [forToken, indexVariable] ++ typeSpecifier.toList ++ [equalToken]
        ++ startExpr.tokens ++ [startEndComma] ++ endExpr.tokens
        ++ endStepComma.toList
        ++ (match step with
            | some e => e.tokens
            | none => [])
        ++ [doToken] ++ block.tokens ++ [endToken]

def IfStmt.tokens : IfStmt → List Token
  | .mk ifToken condition thenToken block elseIfs elseToken elseBlock endToken =>
      [ifToken] ++ condition.tokens ++ [thenToken] ++ block.tokens
        ++ (match elseIfs with
            | some l => l.tokens
            | none => [])
        ++ elseToken.toList
        ++ (match elseBlock with
            | some b => b.tokens
            | none => [])
        ++ [endToken]

def ElseIfList.tokens : ElseIfList → List Token
  | .nil => []
  | .cons e rest => e.tokens ++ rest.tokens

def ElseIf.tokens : ElseIf → List Token
  | .mk elseIfToken condition thenToken block =>
      [elseIfToken] ++ condition.tokens ++ [thenToken] ++ block.tokens

def RepeatStmt.tokens : RepeatStmt → List Token
  | .mk repeatToken block untilToken untilExpr =>
      [repeatToken] ++ block.tokens ++ [untilToken] ++ untilExpr.tokens

def WhileStmt.tokens : WhileStmt → List Token
  | .mk whileToken condition doToken block endToken =>
      [whileToken] ++ condition.tokens ++ [doToken] ++ block.tokens ++ [endToken]

def CompoundAssignment.tokens : CompoundAssignment → List Token
  | .mk lhs op rhs => [lhs, op] ++ rhs.tokens

end

/-- Modelled from the spec (trivia.rs `strip_trivia` composed with
`to_string`): the text of a node with all trivia removed — the concatenation
of its token texts in source order.  Used for width measurement. -/
def Expression.strippedText (e : Expression) : String :=
  String.join (e.tokens.map Token.text)

/-- Whether a token carries any comment in its trivia. -/
def Token.hasComments (t : Token) : Bool :=
  tokenContainsLeadingComments t || tokenContainsTrailingComments t

/-- Modelled from the spec (trivia_util.rs `contains_comments`): whether any
token of the expression carries comments — §4.2(c)(iv) "the condition
expression itself contains any embedded comments". -/
def exprContainsComments (e : Expression) : Bool :=
  e.tokens.any Token.hasComments

/-- Modelled from the spec (trivia_util.rs
`expression_contains_inline_comments`): the embedded-comment check of
§4.2(c)(iv) as used by the repeat-until formatter. -/
def exprContainsInlineComments (e : Expression) : Bool :=
  e.tokens.any Token.hasComments

/-! ## Trivia updates addressed to an expression

Modelled from the spec (trivia.rs implements `UpdateLeadingTrivia` /
`UpdateTrailingTrivia` for expressions; the module is not in the provided
sources): updating the leading trivia of an expression updates its first
token, updating the trailing trivia updates its last token. -/

mutual

def Expression.updateFirstToken (f : Token → Token) : Expression → Expression
  | .binaryOperator lhs op rhs => .binaryOperator (lhs.updateFirstToken f) op rhs
  | .parens l r e => .parens (f l) r e
  | .unaryOperator op e => .unaryOperator (f op) e
  | .value v => .value (v.updateFirstToken f)

def Value.updateFirstToken (f : Token → Token) : Value → Value
  | .func t body => .func (f t) body
  | .functionCall c => .functionCall (c.updateFirstToken f)
  | .tableConstructor t => .tableConstructor (t.updateFirstToken f)
  | .parenExpression e => .parenExpression (e.updateFirstToken f)
  | .other tok => .other (f tok)

def FunctionCall.updateFirstToken (f : Token → Token) : FunctionCall → FunctionCall
  | .mk pfx suffixes => .mk (pfx.updateFirstToken f) suffixes

def FCPrefix.updateFirstToken (f : Token → Token) : FCPrefix → FCPrefix
  | .expr e => .expr (e.updateFirstToken f)
  | .name t => .name (f t)

def TableConstructor.updateFirstToken (f : Token → Token) :
    TableConstructor → TableConstructor
  | .mk l r fields => .mk (f l) r fields

end

mutual

def Expression.updateLastToken (f : Token → Token) : Expression → Expression
  | .binaryOperator lhs op rhs => .binaryOperator lhs op (rhs.updateLastToken f)
  | .parens l r e => .parens l (f r) e
  | .unaryOperator op e => .unaryOperator op (e.updateLastToken f)
  | .value v => .value (v.updateLastToken f)

def Value.updateLastToken (f : Token → Token) : Value → Value
  | .func t body => .func t (body.updateLastToken f)
  | .functionCall c => .functionCall (c.updateLastToken f)
  | .tableConstructor t => .tableConstructor (t.updateLastToken f)
  | .parenExpression e => .parenExpression (e.updateLastToken f)
  | .other tok => .other (f tok)

def FunctionBody.updateLastToken (f : Token → Token) : FunctionBody → FunctionBody
  | .mk header block endToken => .mk header block (f endToken)

def FunctionCall.updateLastToken (f : Token → Token) : FunctionCall → FunctionCall
  | .mk pfx .nil => .mk (pfx.updateLastToken f) .nil
  | .mk pfx (.cons s rest) => .mk pfx ((SuffixList.cons s rest).updateLastToken f)

def FCPrefix.updateLastToken (f : Token → Token) : FCPrefix → FCPrefix
  | .expr e => .expr (e.updateLastToken f)
  | .name t => .name (f t)

def SuffixList.updateLastToken (f : Token → Token) : SuffixList → SuffixList
  | .nil => .nil
  | .cons s .nil => .cons (s.updateLastToken f) .nil
  | .cons s (.cons s2 rest) => .cons s ((SuffixList.cons s2 rest).updateLastToken f)

def Suffix.updateLastToken (f : Token → Token) : Suffix → Suffix
  | .call c => .call (c.updateLastToken f)
  | .index i => .index (i.updateLastToken f)

def Call.updateLastToken (f : Token → Token) : Call → Call
  | .anonymousCall args => .anonymousCall (args.updateLastToken f)
  | .methodCall m => .methodCall (m.updateLastToken f)

def MethodCall.updateLastToken (f : Token → Token) : MethodCall → MethodCall
  | .mk colon nameTok args => .mk colon nameTok (args.updateLastToken f)

def FunctionArgs.updateLastToken (f : Token → Token) : FunctionArgs → FunctionArgs
  | .parens l r arguments => .parens l (f r) arguments
  | .tableConstructor t => .tableConstructor (t.updateLastToken f)
  | .str tok => .str (f tok)

def Index.updateLastToken (f : Token → Token) : Index → Index
  | .brackets l r e => .brackets l (f r) e
  | .dot d n => .dot d (f n)

def TableConstructor.updateLastToken (f : Token → Token) :
    TableConstructor → TableConstructor
  | .mk l r fields => .mk l (f r) fields

end

/-- Update the leading trivia of an expression: addressed to its first token
(trivia.rs, modelled from the spec). -/
def Expression.updateLeadingTrivia (e : Expression) (u : FormatTriviaType) :
    Expression :=
  e.updateFirstToken (fun t => t.updateLeadingTrivia u)

/-- Update the trailing trivia of an expression: addressed to its last token
(trivia.rs, modelled from the spec). -/
def Expression.updateTrailingTrivia (e : Expression) (u : FormatTriviaType) :
    Expression :=
  e.updateLastToken (fun t => t.updateTrailingTrivia u)

/-! ## Expression formatting capability

Modelled from the spec: "Expression-level formatting internals ... beyond the
hanging decision itself — consumed as a capability 'format an expression
given a width budget, return its single-line rendering and its hung
multi-line rendering.'" -/

/-- Modelled from the spec (expression.rs `format_expression`): the
single-line rendering of an expression.  The embedding treats the stored
expression as its own single-line rendering. -/
def formatExpression (_ctx : Context) (e : Expression) (_shape : Shape) :
    Expression :=
  e

/-- Modelled from the spec: the hung multi-line rendering — "the condition is
re-rendered with one additional indent level": a line break with indentation
is placed at the top-level binary operator. -/
def hangExpressionOnce (ctx : Context) (shape : Shape) :
    Expression → Expression
  | .binaryOperator lhs op rhs =>
      .binaryOperator lhs
        (op.updateLeadingTrivia
          (.append [createNewlineTrivia ctx, createIndentTrivia ctx shape])) rhs
  | e => e

/-- Modelled from the spec (expression.rs `hang_expression_trailing_newline`):
the hung rendering of the expression followed by a newline. -/
def hangExpressionTrailingNewline (ctx : Context) (e : Expression)
    (shape : Shape) (_indents : Option Nat) : Expression :=
  (hangExpressionOnce ctx shape e).updateTrailingTrivia
    (.append [createNewlineTrivia ctx])

/-! ## Abstract collaborators

The modules below are part of the repository but not among the provided
sources; their formatters are kept fully abstract as fields of `FmtEnv`:
`block.rs` (`format_block`), `assignment.rs`, `functions.rs`, the luau/lua52
dialect formatters, and `general.rs`'s `format_punctuated_buffer`. -/
structure FmtEnv where
  formatBlock : Context → Block → Shape → Block
  formatAssignment : Context → Assignment → Shape → Assignment
  formatLocalAssignment : Context → LocalAssignment → Shape → LocalAssignment
  formatFunctionDeclaration : Context → FunctionDeclaration → Shape → FunctionDeclaration
  formatLocalFunction : Context → LocalFunction → Shape → LocalFunction
  formatFunctionCall : Context → FunctionCall → Shape → FunctionCall
  formatCompoundAssignment : Context → CompoundAssignment → Shape → CompoundAssignment
  formatExportedTypeDeclaration : Context → Token → Shape → Token
  formatTypeDeclarationStmt : Context → Token → Shape → Token
  formatGoto : Context → Token → Shape → Token
  formatLabel : Context → Token → Shape → Token
  formatTypeSpecifier : Context → Token → Shape → Token
  formatPunctuatedTokens :
    Context → List (Token × Option Token) → Shape →
      List (Token × Option Token) × List Trivia
  formatPunctuatedExprs :
    Context → ExprList → Shape → ExprList × List Trivia

/-- Update trivia around a whole function call (trivia.rs `UpdateTrivia` for
`FunctionCall`, modelled from the spec): leading trivia goes to the first
token, trailing trivia to the last. -/
def FunctionCall.updateTrivia (c : FunctionCall) (lu tu : FormatTriviaType) :
    FunctionCall :=
  (c.updateFirstToken (fun t => t.updateLeadingTrivia lu)).updateLastToken
    (fun t => t.updateTrailingTrivia tu)

/-- Map a function over an else-if list. -/
def ElseIfList.map (f : ElseIf → ElseIf) : ElseIfList → ElseIfList
  | .nil => .nil
  | .cons e rest => .cons (f e) (map f rest)

/-! ## The statement formatting engine (translated from stmt.rs) -/

/-- Removes parentheses around a condition, if present (stmt.rs
`remove_condition_parentheses`).  Called only for condition expressions. -/
def removeConditionParentheses (expression : Expression) : Expression :=
  match expression with
  | .parens _ _ e => e
  | .value v =>
      match v with
      | .parenExpression e => removeConditionParentheses e
      | _ => expression
  | _ => expression

/-- Format a Do node (stmt.rs `format_do_block`). -/
def formatDoBlock (env : FmtEnv) (ctx : Context) (doBlock : DoBlock)
    (shape : Shape) : DoBlock :=
  let leadingTrivia := FormatTriviaType.append [createIndentTrivia ctx shape]
  let trailingTrivia := FormatTriviaType.append [createNewlineTrivia ctx]
  let doToken :=
    (fmtSymbol ctx doBlock.doToken "do" shape).updateTrivia leadingTrivia
      trailingTrivia
  let blockShape := shape.reset.incrementBlockIndent
  let block := env.formatBlock ctx doBlock.block blockShape
  let endToken :=
    (formatEndToken ctx doBlock.endToken .blockEnd shape).updateTrivia
      leadingTrivia trailingTrivia
  .mk doToken block endToken

/-- Format a GenericFor node (stmt.rs `format_generic_for`). -/
def formatGenericFor (env : FmtEnv) (ctx : Context) (genericFor : GenericFor)
    (shape : Shape) : GenericFor :=
  let leadingTrivia := [createIndentTrivia ctx shape]
  let trailingTrivia := [createNewlineTrivia ctx]
  let forToken :=
    (fmtSymbol ctx genericFor.forToken "for " shape).updateLeadingTrivia
      (.append leadingTrivia)
  let namesRes := env.formatPunctuatedTokens ctx genericFor.names shape
  let formattedNames := namesRes.1
  let typeSpecifiers :=
    genericFor.typeSpecifiers.map fun x =>
      x.map fun ts => env.formatTypeSpecifier ctx ts shape
  let inToken := fmtSymbol ctx genericFor.inToken " in " shape
  let exprsRes := env.formatPunctuatedExprs ctx genericFor.expressions shape
  let formattedExprList := exprsRes.1
  let namesCommentsBuf := namesRes.2 ++ exprsRes.2 ++ trailingTrivia
  let doToken :=
    (fmtSymbol ctx genericFor.doToken " do" shape).updateTrailingTrivia
      (.append namesCommentsBuf)
  let blockShape := shape.reset.incrementBlockIndent
  let block := env.formatBlock ctx genericFor.block blockShape
  let endToken :=
    (formatEndToken ctx genericFor.endToken .blockEnd shape).updateTrivia
      (.append leadingTrivia) (.append [createNewlineTrivia ctx])
  .mk forToken formattedNames typeSpecifiers inToken formattedExprList doToken
    block endToken

def ElseIf.elseIfToken : ElseIf → Token
  | .mk t _ _ _ => t

def ElseIf.condition : ElseIf → Expression
  | .mk _ c _ _ => c

def ElseIf.thenToken : ElseIf → Token
  | .mk _ _ t _ => t

def ElseIf.block : ElseIf → Block
  | .mk _ _ _ b => b

/-- Format an ElseIf node (stmt.rs `format_else_if`); always resides within
`formatIf`. -/
def formatElseIf (env : FmtEnv) (ctx : Context) (elseIfNode : ElseIf)
    (shape : Shape) : ElseIf :=
  let shape := shape.reset
  let leadingTrivia := [createIndentTrivia ctx shape]
  let trailingTrivia := [createNewlineTrivia ctx]
  let condition := removeConditionParentheses elseIfNode.condition
  let elseifToken := formatEndToken ctx elseIfNode.elseIfToken .blockEnd shape
  let singlelineCondition := formatExpression ctx condition (shape.add 7)
  let singlelineThenToken := fmtSymbol ctx elseIfNode.thenToken " then" shape
  let singlelineShape :=
    shape.add (7 + 5 + singlelineCondition.strippedText.length)
  let requireMultilineExpression :=
    singlelineShape.overBudget
      || tokenContainsTrailingComments elseIfNode.elseIfToken
      || tokenContainsLeadingComments elseIfNode.thenToken
      || exprContainsComments condition
  let elseifToken :=
    (match requireMultilineExpression with
      | true =>
          elseifToken.updateTrailingTrivia (.append [createNewlineTrivia ctx])
      | false =>
          elseifToken.updateTrailingTrivia
            (.append [Trivia.ws " "])).updateLeadingTrivia
      (.append leadingTrivia)
  let condition :=
    match requireMultilineExpression with
    | true =>
        let shape := shape.reset.incrementAdditionalIndent
        (hangExpressionTrailingNewline ctx condition shape none).updateLeadingTrivia
          (.append [createIndentTrivia ctx shape])
    | false => singlelineCondition
  let thenToken :=
    (match requireMultilineExpression with
      | true =>
          (formatEndToken ctx elseIfNode.thenToken .blockEnd
            shape).updateLeadingTrivia (.append leadingTrivia)
      | false => singlelineThenToken).updateTrailingTrivia
      (.append trailingTrivia)
  let blockShape := shape.reset.incrementBlockIndent
  let block := env.formatBlock ctx elseIfNode.block blockShape
  .mk elseifToken condition thenToken block

/-- Format an If node (stmt.rs `format_if`).  The defensive `unreachable!`
for a mismatched else token / else block pairing is embedded as an error
value. -/
def formatIf (env : FmtEnv) (ctx : Context) (ifNode : IfStmt) (shape : Shape) :
    Except String IfStmt :=
  let leadingTrivia := [createIndentTrivia ctx shape]
  let trailingTrivia := [createNewlineTrivia ctx]
  let condition := removeConditionParentheses ifNode.condition
  let singlelineIfToken := fmtSymbol ctx ifNode.ifToken "if " shape
  let singlelineCondition := formatExpression ctx condition (shape.add 6)
  let singlelineThenToken := fmtSymbol ctx ifNode.thenToken " then" shape
  let singlelineShape :=
    shape.add (3 + 5 + singlelineCondition.strippedText.length)
  let requireMultilineExpression :=
    singlelineShape.overBudget
      || tokenContainsTrailingComments ifNode.ifToken
      || tokenContainsLeadingComments ifNode.thenToken
      || exprContainsComments condition
  let ifToken :=
    (match requireMultilineExpression with
      | true =>
          (fmtSymbol ctx ifNode.ifToken "if" shape).updateTrailingTrivia
            (.append [createNewlineTrivia ctx])
      | false => singlelineIfToken).updateLeadingTrivia
      (.append leadingTrivia)
  let condition :=
    match requireMultilineExpression with
    | true =>
        let shape := shape.reset.incrementAdditionalIndent
        (hangExpressionTrailingNewline ctx condition shape none).updateLeadingTrivia
          (.append [createIndentTrivia ctx shape])
    | false => singlelineCondition
  let thenToken :=
    (match requireMultilineExpression with
      | true =>
          (formatEndToken ctx ifNode.thenToken .blockEnd
            shape).updateLeadingTrivia (.append leadingTrivia)
      | false => singlelineThenToken).updateTrailingTrivia
      (.append trailingTrivia)
  let blockShape := shape.reset.incrementBlockIndent
  let block := env.formatBlock ctx ifNode.block blockShape
  let endToken :=
    (formatEndToken ctx ifNode.endToken .blockEnd shape).updateTrivia
      (.append leadingTrivia) (.append trailingTrivia)
  let elseIfs :=
    ifNode.elseIfs.map fun l =>
      l.map fun elseIf => formatElseIf env ctx elseIf shape
  match ifNode.elseToken, ifNode.elseBlock with
  | some elseToken, some elseBlock =>
      let elseToken :=
        (formatEndToken ctx elseToken .blockEnd shape).updateTrivia
          (.append leadingTrivia) (.append trailingTrivia)
      let elseBlockShape := shape.reset.incrementBlockIndent
      let elseBlock := env.formatBlock ctx elseBlock elseBlockShape
      .ok
        (.mk ifToken condition thenToken block elseIfs (some elseToken)
          (some elseBlock) endToken)
  | none, none =>
      .ok (.mk ifToken condition thenToken block elseIfs none none endToken)
  | _, _ => .error ("Got an else token with no else block or vice versa")

/-- Format a NumericFor node (stmt.rs `format_numeric_for`).  The defensive
`unreachable!` for a mismatched end-step comma / step pairing is embedded as
an error value. -/
def formatNumericFor (env : FmtEnv) (ctx : Context) (numericFor : NumericFor)
    (shape : Shape) : Except String NumericFor :=
  match numericFor with
  | .mk forToken0 indexVariable0 typeSpecifier0 equalToken0 startExpr0
      startEndComma0 endExpr0 endStepComma0 step0 doToken0 block0 endToken0 =>
    let leadingTrivia := [createIndentTrivia ctx shape]
    let trailingTrivia := [createNewlineTrivia ctx]
    let forToken :=
      (fmtSymbol ctx forToken0 "for " shape).updateLeadingTrivia
        (.append leadingTrivia)
    let indexVariable := formatTokenReference ctx indexVariable0 shape
    let typeSpecifier :=
      typeSpecifier0.map fun ts => env.formatTypeSpecifier ctx ts shape
    let equalToken := fmtSymbol ctx equalToken0 " = " shape
    let startExpr := formatExpression ctx startExpr0 shape
    let startEndComma := fmtSymbol ctx startEndComma0 ", " shape
    let endExpr := formatExpression ctx endExpr0 shape
    match endStepComma0, step0 with
    | some endStepComma, some step =>
        let endStepComma := some (fmtSymbol ctx endStepComma ", " shape)
        let step := some (formatExpression ctx step shape)
        let doToken :=
          (fmtSymbol ctx doToken0 " do" shape).updateTrailingTrivia
            (.append trailingTrivia)
        let blockShape := shape.reset.incrementBlockIndent
        let block := env.formatBlock ctx block0 blockShape
        let endToken :=
          (formatEndToken ctx endToken0 .blockEnd shape).updateTrivia
            (.append leadingTrivia) (.append trailingTrivia)
        .ok
          (.mk forToken indexVariable typeSpecifier equalToken startExpr
            startEndComma endExpr endStepComma step doToken block endToken)
    | none, none =>
        let doToken :=
          (fmtSymbol ctx doToken0 " do" shape).updateTrailingTrivia
            (.append trailingTrivia)
        let blockShape := shape.reset.incrementBlockIndent
        let block := env.formatBlock ctx block0 blockShape
        let endToken :=
          (formatEndToken ctx endToken0 .blockEnd shape).updateTrivia
            (.append leadingTrivia) (.append trailingTrivia)
        .ok
          (.mk forToken indexVariable typeSpecifier equalToken startExpr
            startEndComma endExpr none none doToken block endToken)
    | _, _ => .error ("Got numeric for end step comma with no step or vice versa")

/-- Format a Repeat node (stmt.rs `format_repeat_block`). -/
def formatRepeatBlock (env : FmtEnv) (ctx : Context) (repeatBlock : RepeatStmt)
    (shape : Shape) : RepeatStmt :=
  let leadingTrivia := [createIndentTrivia ctx shape]
  let trailingTrivia := [createNewlineTrivia ctx]
  let repeatToken :=
    (fmtSymbol ctx repeatBlock.repeatToken "repeat" shape).updateTrivia
      (.append leadingTrivia) (.append trailingTrivia)
  let blockShape := shape.reset.incrementBlockIndent
  let block := env.formatBlock ctx repeatBlock.block blockShape
  let untilToken :=
    (fmtSymbol ctx repeatBlock.untilToken "until " shape).updateLeadingTrivia
      (.append leadingTrivia)
  let condition := removeConditionParentheses repeatBlock.untilExpr
  let singlelineShape := shape.add (6 + condition.strippedText.length)
  let requireMultilineExpression :=
    singlelineShape.overBudget || exprContainsInlineComments condition
  let shape := shape.add 6
  let untilExpr :=
    match requireMultilineExpression with
    | true =>
        let shape := shape.incrementAdditionalIndent
        hangExpressionTrailingNewline ctx condition shape none
    | false =>
        (formatExpression ctx condition shape).updateTrailingTrivia
          (.append trailingTrivia)
  .mk repeatToken block untilToken untilExpr

/-- Format a While node (stmt.rs `format_while_block`). -/
def formatWhileBlock (env : FmtEnv) (ctx : Context) (whileBlock : WhileStmt)
    (shape : Shape) : WhileStmt :=
  let leadingTrivia := [createIndentTrivia ctx shape]
  let trailingTrivia := [createNewlineTrivia ctx]
  let condition := removeConditionParentheses whileBlock.condition
  let singlelineWhileToken := fmtSymbol ctx whileBlock.whileToken "while " shape
  let singlelineCondition := formatExpression ctx condition (shape.add 6)
  let singlelineDoToken := fmtSymbol ctx whileBlock.doToken " do" shape
  let singlelineShape :=
    shape.add (6 + 3 + singlelineCondition.strippedText.length)
  let requireMultilineExpression :=
    singlelineShape.overBudget
      || tokenContainsTrailingComments whileBlock.whileToken
      || tokenContainsLeadingComments whileBlock.doToken
      || exprContainsComments condition
  let whileToken :=
    (match requireMultilineExpression with
      | true =>
          (fmtSymbol ctx whileBlock.whileToken "while" shape).updateTrailingTrivia
            (.append [createNewlineTrivia ctx])
      | false => singlelineWhileToken).updateLeadingTrivia
      (.append leadingTrivia)
  let condition :=
    match requireMultilineExpression with
    | true =>
        let shape := shape.reset.incrementAdditionalIndent
        (hangExpressionTrailingNewline ctx condition shape none).updateLeadingTrivia
          (.append [createIndentTrivia ctx shape])
    | false => singlelineCondition
  let doToken :=
    (match requireMultilineExpression with
      | true =>
          (formatEndToken ctx whileBlock.doToken .blockEnd
            shape).updateLeadingTrivia (.append leadingTrivia)
      | false => singlelineDoToken).updateTrailingTrivia
      (.append trailingTrivia)
  let blockShape := shape.reset.incrementBlockIndent
  let block := env.formatBlock ctx whileBlock.block blockShape
  let endToken :=
    (formatEndToken ctx whileBlock.endToken .blockEnd shape).updateTrivia
      (.append leadingTrivia) (.append trailingTrivia)
  .mk whileToken condition doToken block endToken

/-- Format a bare function-call statement (stmt.rs
`format_function_call_stmt`): wraps `format_function_call` and attaches the
statement-level trivia. -/
def formatFunctionCallStmt (env : FmtEnv) (ctx : Context)
    (functionCall : FunctionCall) (shape : Shape) : FunctionCall :=
  let leadingTrivia := [createIndentTrivia ctx shape]
  let trailingTrivia := [createNewlineTrivia ctx]
  (env.formatFunctionCall ctx functionCall shape).updateTrivia
    (.append leadingTrivia) (.append trailingTrivia)

/-! ## Range-limited block formatting (stmt.rs `mod stmt_block`)

Functions which only format blocks within a statement; used for range
formatting.  The `other => panic!("unknown node …")` catch-all arms of the
source match expressions cannot be expressed over the closed embedded unions
(every variant of the source enums is a constructor here); the statement-level
catch-all is represented below by a membership test in the enumerated kind
list. -/

mutual

/-- stmt.rs `stmt_block::format_table_constructor_block`. -/
def formatTableConstructorBlock (env : FmtEnv) (ctx : Context)
    (tableConstructor : TableConstructor) (shape : Shape) : TableConstructor :=
  match tableConstructor with
  | .mk l r fields => .mk l r (formatFieldListBlock env ctx fields shape)

/-- The field-pair mapping inside `format_table_constructor_block`. -/
def formatFieldListBlock (env : FmtEnv) (ctx : Context) (fields : FieldList)
    (shape : Shape) : FieldList :=
  match fields with
  | .nil => .nil
  | .cons f sep rest =>
      .cons (formatFieldBlock env ctx f shape) sep
        (formatFieldListBlock env ctx rest shape)

/-- The per-field body of the mapping in `format_table_constructor_block`. -/
def formatFieldBlock (env : FmtEnv) (ctx : Context) (field : Field)
    (shape : Shape) : Field :=
  match field with
  | .expressionKey l r key equal fvalue =>
      .expressionKey l r (formatExpressionBlock env ctx key shape) equal
        (formatExpressionBlock env ctx fvalue shape)
  | .nameKey key equal fvalue =>
      .nameKey key equal (formatExpressionBlock env ctx fvalue shape)
  | .noKey e => .noKey (formatExpressionBlock env ctx e shape)

/-- stmt.rs `stmt_block::format_function_args_block`. -/
def formatFunctionArgsBlock (env : FmtEnv) (ctx : Context)
    (functionArgs : FunctionArgs) (shape : Shape) : FunctionArgs :=
  match functionArgs with
  | .parens l r arguments =>
      .parens l r (formatExprListBlock env ctx arguments shape)
  | .tableConstructor t =>
      .tableConstructor (formatTableConstructorBlock env ctx t shape)
  | .str tok => .str tok

/-- The argument-pair mapping inside `format_function_args_block`. -/
def formatExprListBlock (env : FmtEnv) (ctx : Context) (exprs : ExprList)
    (shape : Shape) : ExprList :=
  match exprs with
  | .nil => .nil
  | .cons e sep rest =>
      .cons (formatExpressionBlock env ctx e shape) sep
        (formatExprListBlock env ctx rest shape)

/-- stmt.rs `stmt_block::format_function_call_block`. -/
def formatFunctionCallBlock (env : FmtEnv) (ctx : Context)
    (functionCall : FunctionCall) (shape : Shape) : FunctionCall :=
  match functionCall with
  | .mk pfx suffixes =>
      let pfx :=
        match pfx with
        | .expr e => FCPrefix.expr (formatExpressionBlock env ctx e shape)
        | .name n => FCPrefix.name n
      .mk pfx (formatSuffixListBlock env ctx suffixes shape)

/-- The suffix mapping inside `format_function_call_block`. -/
def formatSuffixListBlock (env : FmtEnv) (ctx : Context)
    (suffixes : SuffixList) (shape : Shape) : SuffixList :=
  match suffixes with
  | .nil => .nil
  | .cons s rest =>
      .cons (formatSuffixBlock env ctx s shape)
        (formatSuffixListBlock env ctx rest shape)

/-- The per-suffix body of the mapping in `format_function_call_block`. -/
def formatSuffixBlock (env : FmtEnv) (ctx : Context) (suffix : Suffix)
    (shape : Shape) : Suffix :=
  match suffix with
  | .call c =>
      .call
        (match c with
          | .anonymousCall args =>
              Call.anonymousCall (formatFunctionArgsBlock env ctx args shape)
          | .methodCall (.mk colon nameTok args) =>
              Call.methodCall
                (.mk colon nameTok (formatFunctionArgsBlock env ctx args shape)))
  | .index i =>
      .index
        (match i with
          | .brackets l r e =>
              Index.brackets l r (formatExpressionBlock env ctx e shape)
          | .dot d n => Index.dot d n)

/-- stmt.rs `stmt_block::format_expression_block`: only formats a block
within an expression. -/
def formatExpressionBlock (env : FmtEnv) (ctx : Context)
    (expression : Expression) (shape : Shape) : Expression :=
  match expression with
  | .binaryOperator lhs binop rhs =>
      .binaryOperator (formatExpressionBlock env ctx lhs shape) binop
        (formatExpressionBlock env ctx rhs shape)
  | .parens l r e => .parens l r (formatExpressionBlock env ctx e shape)
  | .unaryOperator unop e =>
      .unaryOperator unop (formatExpressionBlock env ctx e shape)
  | .value v =>
      .value
        (match v with
          | .func functionToken (.mk header block endToken) =>
              Value.func functionToken
                (.mk header (env.formatBlock ctx block shape) endToken)
          | .functionCall fc =>
              Value.functionCall (formatFunctionCallBlock env ctx fc shape)
          | .tableConstructor t =>
              Value.tableConstructor (formatTableConstructorBlock env ctx t shape)
          | .parenExpression e =>
              Value.parenExpression (formatExpressionBlock env ctx e shape)
          | .other tok => Value.other tok)

end

/-- stmt.rs `stmt_block::format_stmt_block`, the per-kind arms: only formats
the blocks within the statement. -/
def formatStmtBlockCore (env : FmtEnv) (ctx : Context) (stmt : Stmt)
    (shape : Shape) : Stmt :=
  let blockShape := shape.reset.incrementBlockIndent
  match stmt with
  | .assignment (.mk varList equal expressions) =>
      .assignment
        (.mk varList equal (formatExprListBlock env ctx expressions blockShape))
  | .doStmt (.mk doToken block endToken) =>
      .doStmt (.mk doToken (env.formatBlock ctx block blockShape) endToken)
  | .functionCall fc =>
      .functionCall (formatFunctionCallBlock env ctx fc blockShape)
  | .functionDeclaration (.mk functionToken nameTok (.mk header block endToken)) =>
      .functionDeclaration
        (.mk functionToken nameTok
          (.mk header (env.formatBlock ctx block blockShape) endToken))
  | .genericFor (.mk forToken names typeSpecifiers inToken expressions doToken
      block endToken) =>
      .genericFor
        (.mk forToken names typeSpecifiers inToken expressions doToken
          (env.formatBlock ctx block blockShape) endToken)
  | .ifStmt (.mk ifToken condition thenToken block elseIfs elseToken elseBlock
      endToken) =>
      let block := env.formatBlock ctx block blockShape
      let elseIfs :=
        elseIfs.map fun l =>
          l.map fun elseIf =>
            match elseIf with
            | .mk elseIfToken condition thenToken block =>
                .mk elseIfToken condition thenToken
                  (env.formatBlock ctx block blockShape)
      let elseBlock := elseBlock.map fun b => env.formatBlock ctx b blockShape
      .ifStmt
        (.mk ifToken condition thenToken block elseIfs elseToken elseBlock
          endToken)
  | .localAssignment (.mk localToken nameList equal expressions) =>
      .localAssignment
        (.mk localToken nameList equal
          (formatExprListBlock env ctx expressions blockShape))
  | .localFunction (.mk localToken functionToken nameTok
      (.mk header block endToken)) =>
      .localFunction
        (.mk localToken functionToken nameTok
          (.mk header (env.formatBlock ctx block blockShape) endToken))
  | .numericFor (.mk forToken indexVariable typeSpecifier equalToken startExpr
      startEndComma endExpr endStepComma step doToken block endToken) =>
      .numericFor
        (.mk forToken indexVariable typeSpecifier equalToken startExpr
          startEndComma endExpr endStepComma step doToken
          (env.formatBlock ctx block blockShape) endToken)
  | .repeatStmt (.mk repeatToken block untilToken untilExpr) =>
      .repeatStmt
        (.mk repeatToken (env.formatBlock ctx block blockShape) untilToken
          untilExpr)
  | .whileStmt (.mk whileToken condition doToken block endToken) =>
      .whileStmt
        (.mk whileToken condition doToken
          (env.formatBlock ctx block blockShape) endToken)
  | .compoundAssignment (.mk lhs op rhs) =>
      .compoundAssignment
        (.mk lhs op (formatExpressionBlock env ctx rhs blockShape))
  | .exportedTypeDeclaration t => .exportedTypeDeclaration t
  | .typeDeclaration t => .typeDeclaration t
  | .goto t => .goto t
  | .label t => .label t

/-- The statement kinds explicitly matched by `stmt_block::format_stmt_block`
before its `other => panic!` catch-all arm. -/
def stmtBlockHandledKinds : List StmtKind :=
  [.assignment, .doStmt, .functionCall, .functionDeclaration, .genericFor,
    .ifStmt, .localAssignment, .localFunction, .numericFor, .repeatStmt,
    .whileStmt, .compoundAssignment, .exportedTypeDeclaration,
    .typeDeclaration, .goto, .label]

/-- stmt.rs `stmt_block::format_stmt_block` with its fatal-panic catch-all
embedded as an error value guarded by the enumerated kind list. -/
def formatStmtBlock (env : FmtEnv) (ctx : Context) (stmt : Stmt)
    (shape : Shape) : Except String Stmt :=
  if stmt.kind ∈ stmtBlockHandledKinds then
    .ok (formatStmtBlockCore env ctx stmt shape)
  else .error ("unknown node")

/-- The statement kinds enumerated in the `fmt_stmt!` dispatch macro
invocation of `format_stmt` (with all dialect features compiled in). -/
def fmtStmtHandledKinds : List StmtKind :=
  [.assignment, .doStmt, .functionCall, .functionDeclaration, .genericFor,
    .ifStmt, .localAssignment, .localFunction, .numericFor, .repeatStmt,
    .whileStmt, .compoundAssignment, .exportedTypeDeclaration,
    .typeDeclaration, .goto, .label]

/-- The per-kind arms generated by the `fmt_stmt!` macro: each listed variant
is routed to its formatter and rewrapped in the same variant. -/
def formatStmtDispatch (env : FmtEnv) (ctx : Context) (stmt : Stmt)
    (shape : Shape) : Except String Stmt :=
  match stmt with
  | .assignment a => .ok (.assignment (env.formatAssignment ctx a shape))
  | .doStmt d => .ok (.doStmt (formatDoBlock env ctx d shape))
  | .functionCall c => .ok (.functionCall (formatFunctionCallStmt env ctx c shape))
  | .functionDeclaration f =>
      .ok (.functionDeclaration (env.formatFunctionDeclaration ctx f shape))
  | .genericFor g => .ok (.genericFor (formatGenericFor env ctx g shape))
  | .ifStmt i => (formatIf env ctx i shape).map .ifStmt
  | .localAssignment l =>
      .ok (.localAssignment (env.formatLocalAssignment ctx l shape))
  | .localFunction l => .ok (.localFunction (env.formatLocalFunction ctx l shape))
  | .numericFor n => (formatNumericFor env ctx n shape).map .numericFor
  | .repeatStmt r => .ok (.repeatStmt (formatRepeatBlock env ctx r shape))
  | .whileStmt w => .ok (.whileStmt (formatWhileBlock env ctx w shape))
  | .compoundAssignment c =>
      .ok (.compoundAssignment (env.formatCompoundAssignment ctx c shape))
  | .exportedTypeDeclaration t =>
      .ok (.exportedTypeDeclaration (env.formatExportedTypeDeclaration ctx t shape))
  | .typeDeclaration t =>
      .ok (.typeDeclaration (env.formatTypeDeclarationStmt ctx t shape))
  | .goto t => .ok (.goto (env.formatGoto ctx t shape))
  | .label t => .ok (.label (env.formatLabel ctx t shape))

/-- stmt.rs `format_stmt`: statements outside the formatting range go to the
range-limited block pass; statements inside it go to the `fmt_stmt!`
dispatch, whose `other => panic!` catch-all is embedded as an error value
guarded by the enumerated kind list. -/
def formatStmt (env : FmtEnv) (ctx : Context) (stmt : Stmt) (shape : Shape) :
    Except String Stmt :=
  if !(ctx.shouldFormatStmt stmt) then formatStmtBlock env ctx stmt shape
  else if stmt.kind ∈ fmtStmtHandledKinds then
    formatStmtDispatch env ctx stmt shape
  else .error ("unknown node")

/-! ## The driver (lib.rs `format_code`)

The external parser (`full_moon::parse`), printer (`full_moon::print`), the
whole-tree formatter (`formatters::CodeFormatter::format`, whose module root
is not among the provided sources) and the AST comparator
(`verify_ast::AstVerifier::compare`, also not provided) are abstract fields
of a `Driver`. -/
structure Driver (Ast : Type) where
  parse : String → Except String Ast
  print : Ast → String
  formatAst : Config → Option FmtRange → Ast → Ast
  compare : Ast → Ast → Bool

/-- lib.rs `Error`. -/
inductive FormatError
  | parseError (e : String)
  | verificationAstError (e : String)
  | verificationAstDifference
deriving DecidableEq, Repr

/-- lib.rs `format_code`. -/
def formatCode {Ast : Type} (d : Driver Ast) (code : String) (config : Config)
    (range : Option FmtRange) (verifyOutput : OutputVerification) :
    Except FormatError String :=
  match d.parse code with
  | .error err => .error (.parseError err)
  | .ok inputAst =>
      let inputAstForVerification :=
        match verifyOutput with
        | .full => some inputAst
        | .noVerify => none
      let ast := d.formatAst config range inputAst
      let output := d.print ast
      match inputAstForVerification with
      | some inputAst =>
          match d.parse output with
          | .error err => .error (.verificationAstError err)
          | .ok reparsedOutput =>
              if d.compare inputAst reparsedOutput then .ok output
              else .error .verificationAstDifference
      | none => .ok output

/-! ## Concrete instances used by witnesses and counterexamples -/

/-- An abstract-collaborator environment whose block and helper formatters
are identities and whose punctuation buffers are empty; used to evaluate
the statement formatters on concrete inputs. -/
def envId : FmtEnv where
  formatBlock := fun _ b _ => b
  formatAssignment := fun _ a _ => a
  formatLocalAssignment := fun _ a _ => a
  formatFunctionDeclaration := fun _ f _ => f
  formatLocalFunction := fun _ f _ => f
  formatFunctionCall := fun _ c _ => c
  formatCompoundAssignment := fun _ c _ => c
  formatExportedTypeDeclaration := fun _ t _ => t
  formatTypeDeclarationStmt := fun _ t _ => t
  formatGoto := fun _ t _ => t
  formatLabel := fun _ t _ => t
  formatTypeSpecifier := fun _ t _ => t
  formatPunctuatedTokens := fun _ l _ => (l, [])
  formatPunctuatedExprs := fun _ l _ => (l, [])

/-- A default context: default configuration, no range, everything inside
the formatting range. -/
def ctx0 : Context :=
  { config := Config.default, range := none, shouldFormatStmt := fun _ => true }

/-- A fresh top-level shape with the default column budget. -/
def shape0 : Shape :=
  { indentLevel := 0, additionalIndent := 0, usedWidth := 0, widthBudget := 120,
    indentWidth := 4 }

/-- A bare token with no trivia. -/
def bare (s : String) : Token := { leading := [], text := s, trailing := [] }

/-! ## Claim C6 — condition parenthesis stripping -/

/-- The number of leading-trivia items on the top-level binary operator of an
expression; a layout observable used to tell a hung rendering from a
single-line one. -/
def Expression.binopLeadingCount : Expression → Nat
  | .binaryOperator _ op _ => op.leading.length
  | _ => 0

/-- A bare identifier expression. -/
def identExpr (s : String) : Expression := .value (.other (bare s))

/-- C6 counterexample: `remove_condition_parentheses` is not fully recursive
through a directly nested `Expression::Parentheses` node — applied to a
condition wrapped in two direct parentheses layers it unwraps exactly one
layer, not both, so the claimed "innermost non-parenthesized expression" is
not reached. -/
theorem removeConditionParentheses_not_fully_recursive :
    removeConditionParentheses
        (.parens (bare "(") (bare ")")
          (.parens (bare "(") (bare ")") (identExpr "a"))) =
      Expression.parens (bare "(") (bare ")") (identExpr "a") ∧
    Expression.parens (bare "(") (bare ")") (identExpr "a") ≠ identExpr "a" := by
  refine ⟨rfl, fun h => ?_⟩
  exact Expression.noConfusion h

/-- C6 (amended): the recursion of `remove_condition_parentheses` proceeds
only through `Value::ParenthesesExpression` wrappers; a direct
`Expression::Parentheses` node is unwrapped exactly one layer with no further
recursion, and every non-parenthesized expression is returned unchanged. -/
theorem removeConditionParentheses_characterization :
    (∀ l r e, removeConditionParentheses (.parens l r e) = e) ∧
    (∀ e, removeConditionParentheses (.value (.parenExpression e)) =
      removeConditionParentheses e) ∧
    (∀ lhs op rhs, removeConditionParentheses (.binaryOperator lhs op rhs) =
      .binaryOperator lhs op rhs) ∧
    (∀ op e, removeConditionParentheses (.unaryOperator op e) =
      .unaryOperator op e) ∧
    (∀ t b, removeConditionParentheses (.value (.func t b)) =
      .value (.func t b)) ∧
    (∀ c, removeConditionParentheses (.value (.functionCall c)) =
      .value (.functionCall c)) ∧
    (∀ t, removeConditionParentheses (.value (.tableConstructor t)) =
      .value (.tableConstructor t)) ∧
    (∀ t, removeConditionParentheses (.value (.other t)) =
      .value (.other t)) :=
  ⟨fun _ _ _ => rfl, fun _ => rfl, fun _ _ _ => rfl, fun _ _ => rfl,
    fun _ _ => rfl, fun _ => rfl, fun _ => rfl, fun _ => rfl⟩

/-! ## Claim C8 — comment flushing in the generic-for header -/

/-- C8: every comment collected while formatting the name list and the
iterator-expression list of a generic-for is flushed onto the `do` token's
trailing trivia, appended after the `do` token's own comments and before the
forced newline trivia. -/
theorem formatGenericFor_flushes_comments_before_newline
    (env : FmtEnv) (ctx : Context) (g : GenericFor) (shape : Shape) :
    (formatGenericFor env ctx g shape).doToken.trailing =
      commentsOnly g.doToken.trailing
        ++ (env.formatPunctuatedTokens ctx g.names shape).2
        ++ (env.formatPunctuatedExprs ctx g.expressions shape).2
        ++ [createNewlineTrivia ctx] := by
  cases g
  simp [formatGenericFor, GenericFor.doToken, GenericFor.names,
    GenericFor.expressions, fmtSymbol, Token.updateTrailingTrivia,
    Token.updateLeadingTrivia, applyTriviaUpdate]

/-! ## Claim C5 — the repeat-until hang rule -/

/-- C5 counterexample: a repeat-until statement whose `until` keyword carries
a trailing comment and whose single-line candidate fits the budget.  The
formatter renders the condition in its single-line form (which differs from
the hung rendering), although §4.2(c) lists trailing comments on the leading
keyword as a position that forces hanging. -/
theorem formatRepeatBlock_ignores_keyword_comments :
    (formatRepeatBlock envId ctx0
        (.mk (bare "repeat") (Block.mk .nil)
          { leading := [], text := "until", trailing := [.comment "-- c"] }
          (.binaryOperator (identExpr "a") (bare "and") (identExpr "b")))
        shape0).untilExpr =
      (formatExpression ctx0
          (.binaryOperator (identExpr "a") (bare "and") (identExpr "b"))
          (shape0.add 6)).updateTrailingTrivia
        (.append [createNewlineTrivia ctx0]) ∧
    (formatRepeatBlock envId ctx0
        (.mk (bare "repeat") (Block.mk .nil)
          { leading := [], text := "until", trailing := [.comment "-- c"] }
          (.binaryOperator (identExpr "a") (bare "and") (identExpr "b")))
        shape0).untilExpr ≠
      hangExpressionTrailingNewline ctx0
        (.binaryOperator (identExpr "a") (bare "and") (identExpr "b"))
        ((shape0.add 6).incrementAdditionalIndent) none ∧
    tokenContainsTrailingComments
        { leading := [], text := "until", trailing := [.comment "-- c"] } =
      true ∧
    (shape0.add
        (6 + (removeConditionParentheses
          (.binaryOperator (identExpr "a") (bare "and")
            (identExpr "b"))).strippedText.length)).overBudget = false := by
  refine ⟨rfl, fun h => ?_, rfl, rfl⟩
  have h2 := congrArg Expression.binopLeadingCount h
  exact absurd h2 (by decide)

/-- C5 (amended): the repeat-until formatter hangs the condition if and only
if the single-line candidate `until ` + trivia-stripped condition exceeds the
column budget, or the condition expression contains embedded comments; the
keyword trivia positions of §4.2(c) (trailing comments of the leading
keyword, leading comments of a trailing keyword) are not consulted. -/
theorem formatRepeatBlock_hang_rule (env : FmtEnv) (ctx : Context)
    (r : RepeatStmt) (shape : Shape) :
    (formatRepeatBlock env ctx r shape).untilExpr =
      (if ((shape.add
            (6 + (removeConditionParentheses r.untilExpr).strippedText.length)).overBudget
          || exprContainsInlineComments (removeConditionParentheses r.untilExpr)) = true
        then
          hangExpressionTrailingNewline ctx
            (removeConditionParentheses r.untilExpr)
            ((shape.add 6).incrementAdditionalIndent) none
        else
          (formatExpression ctx (removeConditionParentheses r.untilExpr)
              (shape.add 6)).updateTrailingTrivia
            (.append [createNewlineTrivia ctx])) := by
  cases r
  simp only [formatRepeatBlock, RepeatStmt.untilExpr]
  split <;> simp_all

/-! ## Claim C1 — the if/while hang rule -/

/-- Layout observable: whether the formatter placed a line-break (or any
non-comment trivia) after this token, splitting the construct, rather than
keeping the token joined to the rest of its line.  Formatted keyword tokens
carry only their preserved comments plus any appended newline. -/
def hangsAfterToken (t : Token) : Bool :=
  t.trailing.any fun tr => !tr.isComment

theorem any_not_isComment_commentsOnly (l : List Trivia) :
    (commentsOnly l).any (fun tr => !tr.isComment) = false := by
  induction l with
  | nil => rfl
  | cons hd tl ih =>
      cases hd with
      | ws s => simp [commentsOnly, List.filter_cons, Trivia.isComment, ih]
      | comment s =>
          simp [commentsOnly, List.filter_cons, Trivia.isComment, ih]

theorem hangsAfterToken_updateLeading (t : Token) (u : FormatTriviaType) :
    hangsAfterToken (t.updateLeadingTrivia u) = hangsAfterToken t := rfl

/-- A keyword token re-rendered on a single line is not followed by a line
break: its trailing trivia are exactly its preserved comments. -/
theorem hangsAfterToken_fmtSymbol (ctx : Context) (tok : Token) (s : String)
    (shape : Shape) : hangsAfterToken (fmtSymbol ctx tok s shape) = false :=
  any_not_isComment_commentsOnly tok.trailing

/-- A keyword token with a newline appended to its trailing trivia is
followed by a line break. -/
theorem hangsAfterToken_appendNewline (ctx : Context) (t : Token) :
    hangsAfterToken
        (t.updateTrailingTrivia (.append [createNewlineTrivia ctx])) = true := by
  simp [hangsAfterToken, Token.updateTrailingTrivia, applyTriviaUpdate,
    createNewlineTrivia, Trivia.isComment]

/-- An end-of-construct keyword re-rendered by the shared end-token formatter
keeps only its comments in the trailing trivia. -/
theorem hangsAfterToken_formatEndToken (ctx : Context) (tok : Token)
    (ty : EndTokenType) (shape : Shape) :
    hangsAfterToken (formatEndToken ctx tok ty shape) = false :=
  any_not_isComment_commentsOnly tok.trailing

/-- For a well-paired else arm the if-formatter returns a result. -/
theorem formatIf_ok_of_pairing (env : FmtEnv) (ctx : Context) (i : IfStmt)
    (shape : Shape) (h : i.elseToken.isSome = i.elseBlock.isSome) :
    ∃ out, formatIf env ctx i shape = .ok out := by
  cases i with
  | mk ifTok cond thenTok blk elseIfs elseTok elseBlk endTok =>
      simp only [IfStmt.elseToken, IfStmt.elseBlock] at h
      cases elseTok <;> cases elseBlk
      case none.none => exact ⟨_, rfl⟩
      case none.some => simp at h
      case some.none => simp at h
      case some.some => exact ⟨_, rfl⟩

/-- For a mismatched else arm the if-formatter reports the defensive error. -/
theorem formatIf_error_of_mismatch (env : FmtEnv) (ctx : Context) (i : IfStmt)
    (shape : Shape) (h : ¬i.elseToken.isSome = i.elseBlock.isSome) :
    formatIf env ctx i shape =
      .error ("Got an else token with no else block or vice versa") := by
  cases i with
  | mk ifTok cond thenTok blk elseIfs elseTok elseBlk endTok =>
      simp only [IfStmt.elseToken, IfStmt.elseBlock] at h
      cases elseTok <;> cases elseBlk
      case none.none => exact absurd rfl h
      case none.some => rfl
      case some.none => rfl
      case some.some => exact absurd rfl h

/-- The hang observable of the if token of a formatted if-statement equals
the source's hang decision. -/
theorem formatIf_out_ifToken_hang (env : FmtEnv) (ctx : Context)
    (shape : Shape) (ifTok : Token) (cond : Expression) (thenTok : Token)
    (blk : Block) (elseIfs : Option ElseIfList) (et : Option Token)
    (eb : Option Block) (endTok : Token) (out : IfStmt)
    (hok : formatIf env ctx (.mk ifTok cond thenTok blk elseIfs et eb endTok)
      shape = .ok out) :
    hangsAfterToken out.ifToken =
      ((shape.add (3 + 5 + (formatExpression ctx
          (removeConditionParentheses cond)
          (shape.add 6)).strippedText.length)).overBudget
        || tokenContainsTrailingComments ifTok
        || tokenContainsLeadingComments thenTok
        || exprContainsComments (removeConditionParentheses cond)) := by
  cases et <;> cases eb <;>
    simp only [formatIf, IfStmt.elseToken, IfStmt.elseBlock, IfStmt.ifToken,
      IfStmt.condition, IfStmt.thenToken, IfStmt.block, IfStmt.elseIfs,
      IfStmt.endToken, Except.ok.injEq, reduceCtorEq] at hok
  · subst hok
    simp only [IfStmt.ifToken, hangsAfterToken_updateLeading]
    cases hb : ((shape.add (3 + 5 + (formatExpression ctx
        (removeConditionParentheses cond)
        (shape.add 6)).strippedText.length)).overBudget
      || tokenContainsTrailingComments ifTok
      || tokenContainsLeadingComments thenTok
      || exprContainsComments (removeConditionParentheses cond)) <;>
      simp [hb, hangsAfterToken_appendNewline, hangsAfterToken_fmtSymbol]
  · subst hok
    simp only [IfStmt.ifToken, hangsAfterToken_updateLeading]
    cases hb : ((shape.add (3 + 5 + (formatExpression ctx
        (removeConditionParentheses cond)
        (shape.add 6)).strippedText.length)).overBudget
      || tokenContainsTrailingComments ifTok
      || tokenContainsLeadingComments thenTok
      || exprContainsComments (removeConditionParentheses cond)) <;>
      simp [hb, hangsAfterToken_appendNewline, hangsAfterToken_fmtSymbol]

/-- The hang observable of the while token of a formatted while-statement
equals the source's hang decision. -/
theorem formatWhile_whileToken_hang (env : FmtEnv) (ctx : Context)
    (shape : Shape) (whileTok : Token) (cond : Expression) (doTok : Token)
    (blk : Block) (endTok : Token) :
    hangsAfterToken
        (formatWhileBlock env ctx (.mk whileTok cond doTok blk endTok)
          shape).whileToken =
      ((shape.add (6 + 3 + (formatExpression ctx
          (removeConditionParentheses cond)
          (shape.add 6)).strippedText.length)).overBudget
        || tokenContainsTrailingComments whileTok
        || tokenContainsLeadingComments doTok
        || exprContainsComments (removeConditionParentheses cond)) := by
  simp only [formatWhileBlock, WhileStmt.whileToken, WhileStmt.condition,
    WhileStmt.doToken, hangsAfterToken_updateLeading]
  cases hb : ((shape.add (6 + 3 + (formatExpression ctx
      (removeConditionParentheses cond)
      (shape.add 6)).strippedText.length)).overBudget
    || tokenContainsTrailingComments whileTok
    || tokenContainsLeadingComments doTok
    || exprContainsComments (removeConditionParentheses cond)) <;>
    simp [hb, hangsAfterToken_appendNewline, hangsAfterToken_fmtSymbol]

/-- C1: for an if-statement and a while-statement inside the formatting
range, the construct is hung (a line break is forced after the leading
keyword) if and only if the single-line candidate — leading keyword,
trivia-stripped formatted condition, trailing keyword — exceeds the column
budget of the current shape, or the leading keyword token carries trailing
comments, or the trailing keyword token carries leading comments, or the
condition expression contains embedded comments; otherwise the single-line
renderings computed beforehand are used. -/
theorem formatIf_formatWhile_hang_iff (env : FmtEnv) (ctx : Context)
    (i : IfStmt) (w : WhileStmt) (shape : Shape)
    (h : i.elseToken.isSome = i.elseBlock.isSome) :
    (∃ out, formatIf env ctx i shape = .ok out ∧
       hangsAfterToken out.ifToken =
        ((shape.add (3 + 5 + (formatExpression ctx
            (removeConditionParentheses i.condition)
            (shape.add 6)).strippedText.length)).overBudget
          || tokenContainsTrailingComments i.ifToken
          || tokenContainsLeadingComments i.thenToken
          || exprContainsComments (removeConditionParentheses i.condition))) ∧
    hangsAfterToken (formatWhileBlock env ctx w shape).whileToken =
      ((shape.add (6 + 3 + (formatExpression ctx
          (removeConditionParentheses w.condition)
          (shape.add 6)).strippedText.length)).overBudget
        || tokenContainsTrailingComments w.whileToken
        || tokenContainsLeadingComments w.doToken
        || exprContainsComments (removeConditionParentheses w.condition)) := by
  constructor
  · obtain ⟨out, hout⟩ := formatIf_ok_of_pairing env ctx i shape h
    refine ⟨out, hout, ?_⟩
    cases i with
    | mk ifTok cond thenTok blk elseIfs elseTok elseBlk endTok =>
        simpa [IfStmt.condition, IfStmt.ifToken, IfStmt.thenToken] using
          formatIf_out_ifToken_hang env ctx shape ifTok cond thenTok blk
            elseIfs elseTok elseBlk endTok out hout
  · cases w with
    | mk whileTok cond doTok blk endTok =>
        simpa [WhileStmt.condition, WhileStmt.whileToken, WhileStmt.doToken]
          using formatWhile_whileToken_hang env ctx shape whileTok cond doTok
            blk endTok

/-- Witness for C1: a concrete short `if x then … end` and
`while x do … end`, neither over budget nor carrying comments; both stay on
a single line. -/
theorem formatIf_formatWhile_hang_iff_witness :
    (∃ out,
        formatIf envId ctx0
            (.mk (bare "if") (identExpr "x") (bare "then") (Block.mk .nil)
              none none none (bare "end")) shape0 = .ok out ∧
        hangsAfterToken out.ifToken = false) ∧
    hangsAfterToken
        (formatWhileBlock envId ctx0
            (.mk (bare "while") (identExpr "x") (bare "do") (Block.mk .nil)
              (bare "end")) shape0).whileToken = false := by
  obtain ⟨⟨o, ho, hh⟩, hw⟩ :=
    formatIf_formatWhile_hang_iff envId ctx0
      (.mk (bare "if") (identExpr "x") (bare "then") (Block.mk .nil) none none
        none (bare "end"))
      (.mk (bare "while") (identExpr "x") (bare "do") (Block.mk .nil)
        (bare "end"))
      shape0 rfl
  refine ⟨⟨o, ho, ?_⟩, ?_⟩
  · rw [hh]; decide
  · rw [hw]; decide

/-! ## Claim C9 — else token / else block pairing -/

/-- C9: the if-formatter succeeds exactly when the else token and the else
block are both present or both absent; the defensive branch for a mismatched
pairing (the source's `unreachable!`) is taken only outside that
well-formedness precondition, so it can never fire on a well-formed parse
tree. -/
theorem formatIf_else_pairing (env : FmtEnv) (ctx : Context) (i : IfStmt)
    (shape : Shape) :
    (∃ out, formatIf env ctx i shape = .ok out) ↔
      i.elseToken.isSome = i.elseBlock.isSome := by
  constructor
  · intro hout
    by_contra hne
    rw [formatIf_error_of_mismatch env ctx i shape hne] at hout
    exact absurd hout.choose_spec (by simp)
  · exact formatIf_ok_of_pairing env ctx i shape

/-! ## Claims C3 and C10 — dispatch totality and kind preservation -/

/-- The well-formedness guarantees a statement inherits from a well-formed
parse tree, as far as the statement formatters consult them: paired else
arms and paired numeric-for step commas. -/
def Stmt.topWellFormed : Stmt → Prop
  | .ifStmt i => i.elseToken.isSome = i.elseBlock.isSome
  | .numericFor n => n.endStepComma.isSome = n.step.isSome
  | _ => True

theorem kind_mem_fmtStmtHandledKinds (s : Stmt) :
    s.kind ∈ fmtStmtHandledKinds := by
  cases s <;> simp only [Stmt.kind] <;> decide

theorem kind_mem_stmtBlockHandledKinds (s : Stmt) :
    s.kind ∈ stmtBlockHandledKinds := by
  cases s <;> simp only [Stmt.kind] <;> decide

/-- Inside the range, `format_stmt` reduces to the `fmt_stmt!` dispatch: the
catch-all panic guard is passed for every statement kind. -/
theorem formatStmt_eq_dispatch (env : FmtEnv) (ctx : Context) (s : Stmt)
    (shape : Shape) (hf : ctx.shouldFormatStmt s = true) :
    formatStmt env ctx s shape = formatStmtDispatch env ctx s shape := by
  simp [formatStmt, hf, kind_mem_fmtStmtHandledKinds s]

/-- Outside the range, `format_stmt` reduces to the range-limited block pass:
its catch-all panic guard is passed for every statement kind. -/
theorem formatStmt_eq_block (env : FmtEnv) (ctx : Context) (s : Stmt)
    (shape : Shape) (hf : ctx.shouldFormatStmt s = false) :
    formatStmt env ctx s shape = .ok (formatStmtBlockCore env ctx s shape) := by
  simp [formatStmt, hf, formatStmtBlock, kind_mem_stmtBlockHandledKinds s]

/-- For a well-paired step comma the numeric-for formatter returns a
result. -/
theorem formatNumericFor_ok_of_pairing (env : FmtEnv) (ctx : Context)
    (n : NumericFor) (shape : Shape)
    (h : n.endStepComma.isSome = n.step.isSome) :
    ∃ out, formatNumericFor env ctx n shape = .ok out := by
  cases n with
  | mk forTok idxVar tySpec eqTok startE seComma endE esComma step doTok blk
      endTok =>
      simp only [NumericFor.endStepComma, NumericFor.step] at h
      cases esComma <;> cases step
      case none.none => exact ⟨_, rfl⟩
      case none.some => simp at h
      case some.none => simp at h
      case some.some => exact ⟨_, rfl⟩

/-- C3: given a statement of a well-formed parse tree, the formatter never
fails: every statement kind of the closed set passes both the `fmt_stmt!`
dispatch guard and the range-limited descent guard, and the defensive
branches inside the per-kind formatters are unreachable, so the result is
always returned as an ok value. -/
theorem formatStmt_total_on_wellformed (env : FmtEnv) (ctx : Context)
    (s : Stmt) (shape : Shape) (h : s.topWellFormed) :
    ∃ out, formatStmt env ctx s shape = .ok out := by
  cases hf : ctx.shouldFormatStmt s with
  | false => exact ⟨_, formatStmt_eq_block env ctx s shape hf⟩
  | true =>
      rw [formatStmt_eq_dispatch env ctx s shape hf]
      cases s with
      | ifStmt i =>
          obtain ⟨out, hout⟩ := formatIf_ok_of_pairing env ctx i shape h
          exact ⟨.ifStmt out, by simp [formatStmtDispatch, hout, Except.map]⟩
      | numericFor n =>
          obtain ⟨out, hout⟩ := formatNumericFor_ok_of_pairing env ctx n shape h
          exact ⟨.numericFor out, by simp [formatStmtDispatch, hout, Except.map]⟩
      | assignment a => exact ⟨_, rfl⟩
      | doStmt dd => exact ⟨_, rfl⟩
      | functionCall c => exact ⟨_, rfl⟩
      | functionDeclaration f => exact ⟨_, rfl⟩
      | genericFor g => exact ⟨_, rfl⟩
      | localAssignment l => exact ⟨_, rfl⟩
      | localFunction l => exact ⟨_, rfl⟩
      | repeatStmt r => exact ⟨_, rfl⟩
      | whileStmt w => exact ⟨_, rfl⟩
      | compoundAssignment c => exact ⟨_, rfl⟩
      | exportedTypeDeclaration t => exact ⟨_, rfl⟩
      | typeDeclaration t => exact ⟨_, rfl⟩
      | goto t => exact ⟨_, rfl⟩
      | label t => exact ⟨_, rfl⟩

/-- Witness for C3 at a concrete do-block statement. -/
theorem formatStmt_total_on_wellformed_witness :
    ∃ out,
      formatStmt envId ctx0
          (.doStmt (.mk (bare "do") (Block.mk .nil) (bare "end"))) shape0 =
        .ok out :=
  formatStmt_total_on_wellformed envId ctx0
    (.doStmt (.mk (bare "do") (Block.mk .nil) (bare "end"))) shape0 trivial

/-- The range-limited block pass preserves the statement's variant. -/
theorem formatStmtBlockCore_kind (env : FmtEnv) (ctx : Context) (s : Stmt)
    (shape : Shape) : (formatStmtBlockCore env ctx s shape).kind = s.kind := by
  cases s with
  | assignment a => cases a; rfl
  | doStmt dd => cases dd; rfl
  | functionCall c => rfl
  | functionDeclaration f =>
      cases f with
      | mk fnTok nameTok body => cases body; rfl
  | genericFor g => cases g; rfl
  | ifStmt i => cases i; rfl
  | localAssignment l => cases l; rfl
  | localFunction l =>
      cases l with
      | mk locTok fnTok nameTok body => cases body; rfl
  | numericFor n => cases n; rfl
  | repeatStmt r => cases r; rfl
  | whileStmt w => cases w; rfl
  | compoundAssignment c => cases c; rfl
  | exportedTypeDeclaration t => rfl
  | typeDeclaration t => rfl
  | goto t => rfl
  | label t => rfl

/-- The `fmt_stmt!` dispatch rewraps each formatter result in the same
variant it matched. -/
theorem formatStmtDispatch_kind (env : FmtEnv) (ctx : Context) (s : Stmt)
    (shape : Shape) (out : Stmt)
    (h : formatStmtDispatch env ctx s shape = .ok out) :
    out.kind = s.kind := by
  cases s with
  | ifStmt i =>
      cases hres : formatIf env ctx i shape <;>
        simp [formatStmtDispatch, hres, Except.map] at h
      subst h; rfl
  | numericFor n =>
      cases hres : formatNumericFor env ctx n shape <;>
        simp [formatStmtDispatch, hres, Except.map] at h
      subst h; rfl
  | assignment a => simp [formatStmtDispatch] at h; subst h; rfl
  | doStmt dd => simp [formatStmtDispatch] at h; subst h; rfl
  | functionCall c => simp [formatStmtDispatch] at h; subst h; rfl
  | functionDeclaration f => simp [formatStmtDispatch] at h; subst h; rfl
  | genericFor g => simp [formatStmtDispatch] at h; subst h; rfl
  | localAssignment l => simp [formatStmtDispatch] at h; subst h; rfl
  | localFunction l => simp [formatStmtDispatch] at h; subst h; rfl
  | repeatStmt r => simp [formatStmtDispatch] at h; subst h; rfl
  | whileStmt w => simp [formatStmtDispatch] at h; subst h; rfl
  | compoundAssignment c => simp [formatStmtDispatch] at h; subst h; rfl
  | exportedTypeDeclaration t => simp [formatStmtDispatch] at h; subst h; rfl
  | typeDeclaration t => simp [formatStmtDispatch] at h; subst h; rfl
  | goto t => simp [formatStmtDispatch] at h; subst h; rfl
  | label t => simp [formatStmtDispatch] at h; subst h; rfl

/-- C10: formatting preserves the statement kind on both paths — the
range-limited block pass returns a statement of the same variant, and any ok
result of the full `format_stmt` entry (which routes between the two paths)
has the same variant as its input. -/
theorem formatStmt_preserves_kind (env : FmtEnv) (ctx : Context) (s : Stmt)
    (shape : Shape) :
    (formatStmtBlockCore env ctx s shape).kind = s.kind ∧
    ∀ out, formatStmt env ctx s shape = .ok out → out.kind = s.kind := by
  refine ⟨formatStmtBlockCore_kind env ctx s shape, fun out hout => ?_⟩
  cases hf : ctx.shouldFormatStmt s with
  | false =>
      rw [formatStmt_eq_block env ctx s shape hf] at hout
      simp only [Except.ok.injEq] at hout
      subst hout
      exact formatStmtBlockCore_kind env ctx s shape
  | true =>
      rw [formatStmt_eq_dispatch env ctx s shape hf] at hout
      exact formatStmtDispatch_kind env ctx s shape out hout

/-- Witness for C10 at a concrete while statement. -/
theorem formatStmt_preserves_kind_witness :
    (formatStmtBlockCore envId ctx0
        (.whileStmt (.mk (bare "while") (identExpr "x") (bare "do")
          (Block.mk .nil) (bare "end"))) shape0).kind = StmtKind.whileStmt ∧
    ∃ out,
      formatStmt envId ctx0
          (.whileStmt (.mk (bare "while") (identExpr "x") (bare "do")
            (Block.mk .nil) (bare "end"))) shape0 = .ok out ∧
        out.kind = StmtKind.whileStmt := by
  have h :=
    formatStmt_preserves_kind envId ctx0
      (.whileStmt (.mk (bare "while") (identExpr "x") (bare "do")
        (Block.mk .nil) (bare "end"))) shape0
  exact ⟨h.1, _, rfl, h.2 _ rfl⟩

/-! ## Claim C4 — frame property of the range-limited pass

`eraseBlocks` replaces every nested block of a node by the empty block while
keeping every other field; two nodes with the same erasure agree on all
tokens, trivia and substructure outside their nested blocks. -/

mutual

def Expression.eraseBlocks : Expression → Expression
  | .binaryOperator lhs op rhs =>
      .binaryOperator lhs.eraseBlocks op rhs.eraseBlocks
  | .parens l r e => .parens l r e.eraseBlocks
  | .unaryOperator op e => .unaryOperator op e.eraseBlocks
  | .value v => .value v.eraseBlocks

def Value.eraseBlocks : Value → Value
  | .func t body => .func t body.eraseBlocks
  | .functionCall c => .functionCall c.eraseBlocks
  | .tableConstructor t => .tableConstructor t.eraseBlocks
  | .parenExpression e => .parenExpression e.eraseBlocks
  | .other tok => .other tok

def FunctionBody.eraseBlocks : FunctionBody → FunctionBody
  | .mk header _ endToken => .mk header (Block.mk .nil) endToken

def FunctionCall.eraseBlocks : FunctionCall → FunctionCall
  | .mk pfx suffixes => .mk pfx.eraseBlocks suffixes.eraseBlocks

def FCPrefix.eraseBlocks : FCPrefix → FCPrefix
  | .expr e => .expr e.eraseBlocks
  | .name t => .name t

def SuffixList.eraseBlocks : SuffixList → SuffixList
  | .nil => .nil
  | .cons s rest => .cons s.eraseBlocks rest.eraseBlocks

def Suffix.eraseBlocks : Suffix → Suffix
  | .call c => .call c.eraseBlocks
  | .index i => .index i.eraseBlocks

def Call.eraseBlocks : Call → Call
  | .anonymousCall args => .anonymousCall args.eraseBlocks
  | .methodCall m => .methodCall m.eraseBlocks

def MethodCall.eraseBlocks : MethodCall → MethodCall
  | .mk colon nameTok args => .mk colon nameTok args.eraseBlocks

def FunctionArgs.eraseBlocks : FunctionArgs → FunctionArgs
  | .parens l r arguments => .parens l r arguments.eraseBlocks
  | .tableConstructor t => .tableConstructor t.eraseBlocks
  | .str tok => .str tok

def Index.eraseBlocks : Index → Index
  | .brackets l r e => .brackets l r e.eraseBlocks
  | .dot d n => .dot d n

def TableConstructor.eraseBlocks : TableConstructor → TableConstructor
  | .mk l r fields => .mk l r fields.eraseBlocks

def FieldList.eraseBlocks : FieldList → FieldList
  | .nil => .nil
  | .cons f sep rest => .cons f.eraseBlocks sep rest.eraseBlocks

def Field.eraseBlocks : Field → Field
  | .expressionKey l r key equal fvalue =>
      .expressionKey l r key.eraseBlocks equal fvalue.eraseBlocks
  | .nameKey key equal fvalue => .nameKey key equal fvalue.eraseBlocks
  | .noKey e => .noKey e.eraseBlocks

def ExprList.eraseBlocks : ExprList → ExprList
  | .nil => .nil
  | .cons e sep rest => .cons e.eraseBlocks sep rest.eraseBlocks

end

def ElseIf.eraseBlocks : ElseIf → ElseIf
  | .mk t c tt _ => .mk t c.eraseBlocks tt (Block.mk .nil)

def ElseIfList.eraseBlocks : ElseIfList → ElseIfList
  | .nil => .nil
  | .cons e rest => .cons e.eraseBlocks rest.eraseBlocks

def Assignment.eraseBlocks : Assignment → Assignment
  | .mk varList equal expressions => .mk varList equal expressions.eraseBlocks

def LocalAssignment.eraseBlocks : LocalAssignment → LocalAssignment
  | .mk localToken nameList equal expressions =>
      .mk localToken nameList equal expressions.eraseBlocks

def DoBlock.eraseBlocks : DoBlock → DoBlock
  | .mk doToken _ endToken => .mk doToken (Block.mk .nil) endToken

def FunctionDeclaration.eraseBlocks : FunctionDeclaration → FunctionDeclaration
  | .mk functionToken nameTok body => .mk functionToken nameTok body.eraseBlocks

def LocalFunction.eraseBlocks : LocalFunction → LocalFunction
  | .mk localToken functionToken nameTok body =>
      .mk localToken functionToken nameTok body.eraseBlocks

def GenericFor.eraseBlocks : GenericFor → GenericFor
  | .mk forToken names typeSpecifiers inToken expressions doToken _ endToken =>
      .mk forToken names typeSpecifiers inToken expressions.eraseBlocks doToken
        (Block.mk .nil) endToken

def NumericFor.eraseBlocks : NumericFor → NumericFor
  | .mk forToken indexVariable typeSpecifier equalToken startExpr startEndComma
      endExpr endStepComma step doToken _ endToken =>
      .mk forToken indexVariable typeSpecifier equalToken startExpr.eraseBlocks
        startEndComma endExpr.eraseBlocks endStepComma
        (step.map Expression.eraseBlocks) doToken (Block.mk .nil) endToken

def IfStmt.eraseBlocks : IfStmt → IfStmt
  | .mk ifToken condition thenToken _ elseIfs elseToken elseBlock endToken =>
      .mk ifToken condition.eraseBlocks thenToken (Block.mk .nil)
        (elseIfs.map ElseIfList.eraseBlocks) elseToken
        (elseBlock.map fun _ => Block.mk .nil) endToken

def RepeatStmt.eraseBlocks : RepeatStmt → RepeatStmt
  | .mk repeatToken _ untilToken untilExpr =>
      .mk repeatToken (Block.mk .nil) untilToken untilExpr.eraseBlocks

def WhileStmt.eraseBlocks : WhileStmt → WhileStmt
  | .mk whileToken condition doToken _ endToken =>
      .mk whileToken condition.eraseBlocks doToken (Block.mk .nil) endToken

def CompoundAssignment.eraseBlocks : CompoundAssignment → CompoundAssignment
  | .mk lhs op rhs => .mk lhs op rhs.eraseBlocks

def Stmt.eraseBlocks : Stmt → Stmt
  | .assignment a => .assignment a.eraseBlocks
  | .doStmt d => .doStmt d.eraseBlocks
  | .functionCall c => .functionCall c.eraseBlocks
  | .functionDeclaration f => .functionDeclaration f.eraseBlocks
  | .genericFor g => .genericFor g.eraseBlocks
  | .ifStmt i => .ifStmt i.eraseBlocks
  | .localAssignment l => .localAssignment l.eraseBlocks
  | .localFunction l => .localFunction l.eraseBlocks
  | .numericFor n => .numericFor n.eraseBlocks
  | .repeatStmt r => .repeatStmt r.eraseBlocks
  | .whileStmt w => .whileStmt w.eraseBlocks
  | .compoundAssignment c => .compoundAssignment c.eraseBlocks
  | .exportedTypeDeclaration t => .exportedTypeDeclaration t
  | .typeDeclaration t => .typeDeclaration t
  | .goto t => .goto t
  | .label t => .label t

mutual

theorem eraseBlocks_formatExpressionBlock (env : FmtEnv) (ctx : Context)
    (shape : Shape) :
    ∀ e : Expression,
      (formatExpressionBlock env ctx e shape).eraseBlocks = e.eraseBlocks
  | .binaryOperator lhs op rhs => by
      simp [formatExpressionBlock, Expression.eraseBlocks,
        eraseBlocks_formatExpressionBlock env ctx shape lhs,
        eraseBlocks_formatExpressionBlock env ctx shape rhs]
  | .parens l r e => by
      simp [formatExpressionBlock, Expression.eraseBlocks,
        eraseBlocks_formatExpressionBlock env ctx shape e]
  | .unaryOperator op e => by
      simp [formatExpressionBlock, Expression.eraseBlocks,
        eraseBlocks_formatExpressionBlock env ctx shape e]
  | .value v => by
      cases v with
      | func t body =>
          cases body
          simp [formatExpressionBlock, Expression.eraseBlocks,
            Value.eraseBlocks, FunctionBody.eraseBlocks]
      | functionCall c =>
          simp [formatExpressionBlock, Expression.eraseBlocks,
            Value.eraseBlocks, eraseBlocks_formatFunctionCallBlock env ctx shape c]
      | tableConstructor t =>
          simp [formatExpressionBlock, Expression.eraseBlocks,
            Value.eraseBlocks,
            eraseBlocks_formatTableConstructorBlock env ctx shape t]
      | parenExpression e =>
          simp [formatExpressionBlock, Expression.eraseBlocks,
            Value.eraseBlocks, eraseBlocks_formatExpressionBlock env ctx shape e]
      | other tok => rfl

theorem eraseBlocks_formatFunctionCallBlock (env : FmtEnv) (ctx : Context)
    (shape : Shape) :
    ∀ c : FunctionCall,
      (formatFunctionCallBlock env ctx c shape).eraseBlocks = c.eraseBlocks
  | .mk pfx suffixes => by
      cases pfx with
      | expr e =>
          simp [formatFunctionCallBlock, FunctionCall.eraseBlocks,
            FCPrefix.eraseBlocks,
            eraseBlocks_formatExpressionBlock env ctx shape e,
            eraseBlocks_formatSuffixListBlock env ctx shape suffixes]
      | name n =>
          simp [formatFunctionCallBlock, FunctionCall.eraseBlocks,
            FCPrefix.eraseBlocks,
            eraseBlocks_formatSuffixListBlock env ctx shape suffixes]

theorem eraseBlocks_formatSuffixListBlock (env : FmtEnv) (ctx : Context)
    (shape : Shape) :
    ∀ l : SuffixList,
      (formatSuffixListBlock env ctx l shape).eraseBlocks = l.eraseBlocks
  | .nil => rfl
  | .cons s rest => by
      simp [formatSuffixListBlock, SuffixList.eraseBlocks,
        eraseBlocks_formatSuffixBlock env ctx shape s,
        eraseBlocks_formatSuffixListBlock env ctx shape rest]

theorem eraseBlocks_formatSuffixBlock (env : FmtEnv) (ctx : Context)
    (shape : Shape) :
    ∀ s : Suffix, (formatSuffixBlock env ctx s shape).eraseBlocks = s.eraseBlocks
  | .call c => by
      cases c with
      | anonymousCall args =>
          simp [formatSuffixBlock, Suffix.eraseBlocks, Call.eraseBlocks,
            eraseBlocks_formatFunctionArgsBlock env ctx shape args]
      | methodCall m =>
          cases m with
          | mk colon nameTok args =>
              simp [formatSuffixBlock, Suffix.eraseBlocks, Call.eraseBlocks,
                MethodCall.eraseBlocks,
                eraseBlocks_formatFunctionArgsBlock env ctx shape args]
  | .index i => by
      cases i with
      | brackets l r e =>
          simp [formatSuffixBlock, Suffix.eraseBlocks, Index.eraseBlocks,
            eraseBlocks_formatExpressionBlock env ctx shape e]
      | dot d n => rfl

theorem eraseBlocks_formatFunctionArgsBlock (env : FmtEnv) (ctx : Context)
    (shape : Shape) :
    ∀ a : FunctionArgs,
      (formatFunctionArgsBlock env ctx a shape).eraseBlocks = a.eraseBlocks
  | .parens l r arguments => by
      simp [formatFunctionArgsBlock, FunctionArgs.eraseBlocks,
        eraseBlocks_formatExprListBlock env ctx shape arguments]
  | .tableConstructor t => by
      simp [formatFunctionArgsBlock, FunctionArgs.eraseBlocks,
        eraseBlocks_formatTableConstructorBlock env ctx shape t]
  | .str tok => rfl

theorem eraseBlocks_formatExprListBlock (env : FmtEnv) (ctx : Context)
    (shape : Shape) :
    ∀ l : ExprList,
      (formatExprListBlock env ctx l shape).eraseBlocks = l.eraseBlocks
  | .nil => rfl
  | .cons e sep rest => by
      simp [formatExprListBlock, ExprList.eraseBlocks,
        eraseBlocks_formatExpressionBlock env ctx shape e,
        eraseBlocks_formatExprListBlock env ctx shape rest]

theorem eraseBlocks_formatTableConstructorBlock (env : FmtEnv) (ctx : Context)
    (shape : Shape) :
    ∀ t : TableConstructor,
      (formatTableConstructorBlock env ctx t shape).eraseBlocks = t.eraseBlocks
  | .mk l r fields => by
      simp [formatTableConstructorBlock, TableConstructor.eraseBlocks,
        eraseBlocks_formatFieldListBlock env ctx shape fields]

theorem eraseBlocks_formatFieldListBlock (env : FmtEnv) (ctx : Context)
    (shape : Shape) :
    ∀ l : FieldList,
      (formatFieldListBlock env ctx l shape).eraseBlocks = l.eraseBlocks
  | .nil => rfl
  | .cons f sep rest => by
      simp [formatFieldListBlock, FieldList.eraseBlocks,
        eraseBlocks_formatFieldBlock env ctx shape f,
        eraseBlocks_formatFieldListBlock env ctx shape rest]

theorem eraseBlocks_formatFieldBlock (env : FmtEnv) (ctx : Context)
    (shape : Shape) :
    ∀ f : Field, (formatFieldBlock env ctx f shape).eraseBlocks = f.eraseBlocks
  | .expressionKey l r key equal fvalue => by
      simp [formatFieldBlock, Field.eraseBlocks,
        eraseBlocks_formatExpressionBlock env ctx shape key,
        eraseBlocks_formatExpressionBlock env ctx shape fvalue]
  | .nameKey key equal fvalue => by
      simp [formatFieldBlock, Field.eraseBlocks,
        eraseBlocks_formatExpressionBlock env ctx shape fvalue]
  | .noKey e => by
      simp [formatFieldBlock, Field.eraseBlocks,
        eraseBlocks_formatExpressionBlock env ctx shape e]

end

theorem eraseBlocks_elseIfList_withBlock (env : FmtEnv) (ctx : Context)
    (blockShape : Shape) :
    ∀ l : ElseIfList,
      (l.map fun elseIf =>
        match elseIf with
        | .mk elseIfToken condition thenToken block =>
            ElseIf.mk elseIfToken condition thenToken
              (env.formatBlock ctx block blockShape)).eraseBlocks =
        l.eraseBlocks
  | .nil => rfl
  | .cons e rest => by
      cases e
      simp [ElseIfList.map, ElseIfList.eraseBlocks, ElseIf.eraseBlocks,
        eraseBlocks_elseIfList_withBlock env ctx blockShape rest]

/-- The range-limited statement pass agrees with the input outside nested
blocks. -/
theorem eraseBlocks_formatStmtBlockCore (env : FmtEnv) (ctx : Context)
    (s : Stmt) (shape : Shape) :
    (formatStmtBlockCore env ctx s shape).eraseBlocks = s.eraseBlocks := by
  cases s with
  | assignment a =>
      cases a
      simp [formatStmtBlockCore, Stmt.eraseBlocks, Assignment.eraseBlocks,
        eraseBlocks_formatExprListBlock]
  | doStmt dd =>
      cases dd
      simp [formatStmtBlockCore, Stmt.eraseBlocks, DoBlock.eraseBlocks]
  | functionCall c =>
      simp [formatStmtBlockCore, Stmt.eraseBlocks,
        eraseBlocks_formatFunctionCallBlock]
  | functionDeclaration f =>
      cases f with
      | mk fnTok nameTok body =>
          cases body
          simp [formatStmtBlockCore, Stmt.eraseBlocks,
            FunctionDeclaration.eraseBlocks, FunctionBody.eraseBlocks]
  | genericFor g =>
      cases g
      simp [formatStmtBlockCore, Stmt.eraseBlocks, GenericFor.eraseBlocks]
  | ifStmt i =>
      cases i with
      | mk ifTok cond thenTok blk elseIfs elseTok elseBlk endTok =>
          cases elseIfs <;> cases elseBlk <;>
            simp [formatStmtBlockCore, Stmt.eraseBlocks, IfStmt.eraseBlocks,
              eraseBlocks_elseIfList_withBlock]
  | localAssignment l =>
      cases l
      simp [formatStmtBlockCore, Stmt.eraseBlocks, LocalAssignment.eraseBlocks,
        eraseBlocks_formatExprListBlock]
  | localFunction l =>
      cases l with
      | mk locTok fnTok nameTok body =>
          cases body
          simp [formatStmtBlockCore, Stmt.eraseBlocks,
            LocalFunction.eraseBlocks, FunctionBody.eraseBlocks]
  | numericFor n =>
      cases n
      simp [formatStmtBlockCore, Stmt.eraseBlocks, NumericFor.eraseBlocks]
  | repeatStmt r =>
      cases r
      simp [formatStmtBlockCore, Stmt.eraseBlocks, RepeatStmt.eraseBlocks]
  | whileStmt w =>
      cases w
      simp [formatStmtBlockCore, Stmt.eraseBlocks, WhileStmt.eraseBlocks]
  | compoundAssignment c =>
      cases c
      simp [formatStmtBlockCore, Stmt.eraseBlocks,
        CompoundAssignment.eraseBlocks, eraseBlocks_formatExpressionBlock]
  | exportedTypeDeclaration t => rfl
  | typeDeclaration t => rfl
  | goto t => rfl
  | label t => rfl

/-- C4: for a statement outside the formatting range, the range-limited pass
leaves everything except nested blocks unchanged — erasing the nested blocks
of the result gives exactly the erasure of the input, both for whole
statements and for the expression-position descent (anonymous-function
bodies, table-constructor fields and call arguments); every other field is
returned as parsed. -/
theorem formatStmtBlock_frame (env : FmtEnv) (ctx : Context) (s : Stmt)
    (shape : Shape) :
    (formatStmtBlockCore env ctx s shape).eraseBlocks = s.eraseBlocks ∧
    ∀ e : Expression,
      (formatExpressionBlock env ctx e shape).eraseBlocks = e.eraseBlocks :=
  ⟨eraseBlocks_formatStmtBlockCore env ctx s shape,
    fun e => eraseBlocks_formatExpressionBlock env ctx shape e⟩

/-! ## Claim C7 — the error contract of `format_code` -/

/-- C7: `format_code` returns a parse error exactly when the input fails to
parse (and does so for every verification mode, independently of the
formatting stage); under full verification it returns the reparse fault
exactly when the formatted output fails to reparse, and the AST-difference
fault exactly when the output reparses but the comparison reports a
difference; with verification off, neither verification fault is possible
and every parsed input produces the printed formatted tree. -/
theorem formatCode_error_conditions {Ast : Type} (d : Driver Ast)
    (code : String) (config : Config) (range : Option FmtRange) :
    ((∀ v, ((∃ e, formatCode d code config range v = .error (.parseError e)) ↔
        ∃ e, d.parse code = .error e)) ∧
      (∀ e v, d.parse code = .error e →
        formatCode d code config range v = .error (.parseError e))) ∧
    ((∃ e, formatCode d code config range .full =
        .error (.verificationAstError e)) ↔
      ∃ a, d.parse code = .ok a ∧
        ∃ e, d.parse (d.print (d.formatAst config range a)) = .error e) ∧
    (formatCode d code config range .full = .error .verificationAstDifference ↔
      ∃ a, d.parse code = .ok a ∧
        ∃ b, d.parse (d.print (d.formatAst config range a)) = .ok b ∧
          d.compare a b = false) ∧
    (∀ e, formatCode d code config range .noVerify ≠
      .error (.verificationAstError e)) ∧
    (formatCode d code config range .noVerify ≠
      .error .verificationAstDifference) ∧
    (∀ a, d.parse code = .ok a →
      formatCode d code config range .noVerify =
        .ok (d.print (d.formatAst config range a))) := by
  cases hp : d.parse code with
  | error e0 =>
      refine ⟨⟨fun v => ?_, ?_⟩, ?_, ?_, ?_, ?_, ?_⟩
      · simp [formatCode, hp]
      · intro e v he
        simp only [Except.error.injEq] at he
        subst he
        simp [formatCode, hp]
      · simp [formatCode, hp]
      · simp [formatCode, hp]
      · intro e
        simp [formatCode, hp]
      · simp [formatCode, hp]
      · intro a ha
        exact absurd ha (by simp)
  | ok a0 =>
      cases hrp : d.parse (d.print (d.formatAst config range a0)) with
      | error e1 =>
          refine ⟨⟨fun v => ?_, ?_⟩, ?_, ?_, ?_, ?_, ?_⟩
          · cases v <;> simp [formatCode, hp, hrp]
          · intro e v he
            exact absurd he (by simp)
          · simp [formatCode, hp, hrp]
          · simp [formatCode, hp, hrp]
          · intro e
            simp [formatCode, hp]
          · simp [formatCode, hp]
          · intro a ha
            simp only [Except.ok.injEq] at ha
            subst ha
            simp [formatCode, hp]
      | ok b0 =>
          cases hc : d.compare a0 b0 with
          | false =>
              refine ⟨⟨fun v => ?_, ?_⟩, ?_, ?_, ?_, ?_, ?_⟩
              · cases v <;> simp [formatCode, hp, hrp, hc]
              · intro e v he
                exact absurd he (by simp)
              · simp [formatCode, hp, hrp, hc]
              · simp [formatCode, hp, hrp, hc]
              · intro e
                simp [formatCode, hp]
              · simp [formatCode, hp]
              · intro a ha
                simp only [Except.ok.injEq] at ha
                subst ha
                simp [formatCode, hp]
          | true =>
              refine ⟨⟨fun v => ?_, ?_⟩, ?_, ?_, ?_, ?_, ?_⟩
              · cases v <;> simp [formatCode, hp, hrp, hc]
              · intro e v he
                exact absurd he (by simp)
              · simp [formatCode, hp, hrp, hc]
              · simp [formatCode, hp, hrp, hc]
              · intro e
                simp [formatCode, hp]
              · simp [formatCode, hp]
              · intro a ha
                simp only [Except.ok.injEq] at ha
                subst ha
                simp [formatCode, hp]

/-- A concrete driver over a unit CST, used as a witness instance. -/
def d0 : Driver Unit where
  parse := fun _ => .ok ()
  print := fun _ => "y"
  formatAst := fun _ _ a => a
  compare := fun _ _ => true

/-- Witness for C7: with verification off, a parsed input yields the printed
formatted tree. -/
theorem formatCode_error_conditions_witness :
    formatCode d0 "x" Config.default none .noVerify = .ok "y" :=
  (formatCode_error_conditions d0 "x" Config.default none).2.2.2.2.2 () rfl

/-! ## Claim C2 — idempotence of `format_code` -/

/-- C2: if the tree-level formatter is idempotent and the printer/parser pair
is faithful (spec §6: print is an exact re-serialization; §8: tree-level
idempotence), then `format_code` with no range and no verification is
idempotent at the text level: formatting a formatted output again yields the
identical text. -/
theorem formatCode_idempotent {Ast : Type} (d : Driver Ast) (config : Config)
    (hpp : ∀ a, d.parse (d.print a) = .ok a)
    (hff : ∀ a, d.formatAst config none (d.formatAst config none a) =
      d.formatAst config none a)
    (code out : String)
    (h : formatCode d code config none .noVerify = .ok out) :
    formatCode d out config none .noVerify = .ok out := by
  cases hp : d.parse code with
  | error e => simp [formatCode, hp] at h
  | ok a =>
      simp only [formatCode, hp, Except.ok.injEq] at h
      subst h
      simp [formatCode, hpp, hff]

/-- Witness for C2 at a concrete driver and input. -/
theorem formatCode_idempotent_witness :
    formatCode d0 "y" Config.default none .noVerify = .ok "y" :=
  formatCode_idempotent d0 Config.default (fun _ => rfl) (fun _ => rfl) "x" "y"
    rfl

end StyLua
